import Mathlib

/-!
The dorfyn client: session credential lifecycle and authenticated request dispatch.

A shallow embedding of `yclient.go`, `yerror.go` and the entry point of `yquote.go`.

Modelling conventions.

* A Go `string` and a Go `[]byte` are both a Lean `String`; `string(body[:])` is the identity.
* A Go `error` is the text returned by its `Error` method (`GoError`); a nil error is `none`.
* A `time.Time` is an `Int`: nanoseconds since the zero instant `time.Time{}`, so the zero
  value is `0` and `t.Before(u)` is `t < u`.
* The wall clock and the monotonic clock of a `time.Time` are taken to agree, and instants
  stay inside the range a `time.Time` can hold, so that `t.Add(d)` is `t + d`.
* Everything outside the process (the wall clock, the HTTP transport, the JSON decoder, the
  file system) is a field of `Env`; the code is a function of `Env` and of the mutable process
  state `World`.  Every transport exchange and every dump write is appended to `World.trace`.
* The `logError` / `logInfo` / `logDebug` calls only print and are left out.
-/

namespace Dorfyn

/-! ## Data model -/

/-- A Go error value, identified with the text of its `Error()` method. -/
structure GoError where
  msg : String
deriving DecidableEq, Repr

/-- The fields of `http.Cookie` read by `fetchCookies`.  `Expires = 0` is the unset zero time. -/
structure Cookie where
  Name : String
  Value : String
  MaxAge : Int
  Expires : Int
deriving DecidableEq, Repr

/-- An outgoing `http.Request`: method, URL and header lines in source order. -/
structure Request where
  method : String
  url : String
  header : List (String × String)
deriving DecidableEq, Repr

/-- What the code reads of an `http.Response`: the status line, the status code, the cookies
returned by `response.Cookies()`, and the outcome of `io.ReadAll(response.Body)`.

`net/http` fills `Status` with the text of the status line after the protocol version and
parses `StatusCode` from its first three characters, so for a three-digit code the status
line starts with the decimal digits of the code; `status_ok` records this. -/
structure Response where
  Status : String
  StatusCode : Int
  cookies : List Cookie
  body : Except GoError String
  status_ok : 100 ≤ StatusCode → (toString StatusCode).data <+: Status.data

/-- The three call sites of `httpClient.Do`. -/
inductive Site where
  | cookie
  | crumb
  | api
deriving DecidableEq, Repr

/-- An observable effect: a transport exchange (with the site that issued it and its outcome)
or a write of the diagnostic dump file. -/
inductive Event where
  | exchange (site : Site) (req : Request) (res : Except GoError Response)
  | dump (path : String) (content : String)

/-- The struct `yClient`. -/
structure yClient where
  expiry : Int
  cookies : String
  crumb : String
deriving DecidableEq, Repr

/-- The struct `yError`. -/
structure yError where
  Code : String
  Description : String
deriving DecidableEq, Repr

/-- The struct `Quote`; of its optional plain-data fields the two named by the specification
are kept.  A decoded `float64` is finite and is held by its exact rational value. -/
structure Quote where
  Symbol : Option String
  RegularMarketPrice : Option Rat
deriving DecidableEq, Repr

/-- The anonymous struct `quoteResponse.Inner`: `Result` is a slice (nil is `none`), `Error` a
pointer (nil is `none`). -/
structure quoteResponseInner where
  Result : Option (List Quote)
  Error : Option yError
deriving DecidableEq, Repr

/-- The struct `quoteResponse`. -/
structure quoteResponse where
  Inner : quoteResponseInner
deriving DecidableEq, Repr

/-- The type `queryParams`, a `map[string]string`, as an association list with distinct keys. -/
abbrev queryParams := List (String × String)

/-! ## Constants -/

def yFinURL : String := "https://query1.finance.yahoo.com"

def crumbURL : String := yFinURL ++ "/v1/test/getcrumb"

def cookieURL : String := "https://login.yahoo.com"

def userAgent : String :=
  "Mozilla/5.0 (Windows NT 10.0; Win64; x64; rv:109.0) Gecko/20100101 Firefox/113.0"

def enableDump : Bool := true

def apiErrorCode : String := "api-error"

def remoteErrorCode : String := "remote-error"

def yFinQuoteAPI : String := "/v7/finance/quote"

/-! ## Environment and process state -/

/-- The outside world.

* `clock n` is the value of the `n`-th call of `time.Now()`.
* `addDate10 t` is `t.AddDate(10, 0, 0)`.
* `newRequestErr url` is the error of `http.NewRequest("GET", url, nil)`, if any; the two
  constant URLs of the handshake parse, which the two proof fields record.
* `roundTrip history req` is the outcome of `httpClient.Do(req)` after the events `history`.
* `unmarshalQuoteResponse body v` is `json.Unmarshal(body, &v)`: the target afterwards and the
  error.
* `queryGet url key` is `req.URL.Query().Get(key)`; `jsonIndent src` is the buffer left by
  `json.Indent` and its error; `filepathJoin` is `filepath.Join`; `writeFile name data` is the
  error of `os.WriteFile(name, data, 0644)`. -/
structure Env where
  clock : Nat → Int
  addDate10 : Int → Int
  newRequestErr : String → Option GoError
  cookieURL_ok : newRequestErr cookieURL = none
  crumbURL_ok : newRequestErr crumbURL = none
  roundTrip : List Event → Request → Except GoError Response
  unmarshalQuoteResponse : String → quoteResponse → quoteResponse × Option GoError
  queryGet : String → String → String
  jsonIndent : String → String × Option GoError
  filepathJoin : String → String → String
  writeFile : String → String → Option GoError

/-- The same outside world with another JSON decoder. -/
def Env.withUnmarshal (env : Env)
    (unmarshal : String → quoteResponse → quoteResponse × Option GoError) : Env :=
  { env with unmarshalQuoteResponse := unmarshal }

/-- The mutable state of the process: the package variable `client`, the number of clock
readings taken so far, and the effects performed so far (oldest first). -/
structure World where
  client : yClient
  tick : Nat
  trace : List Event

/-- The call `time.Now()`. -/
def timeNow (env : Env) (w : World) : Int × World :=
  (env.clock w.tick, { w with tick := w.tick + 1 })

/-- The call `httpClient.Do(request)` issued from `site`. -/
def httpClientDo (env : Env) (site : Site) (req : Request) (w : World) :
    Except GoError Response × World :=
  let res := env.roundTrip w.trace req
  (res, { w with trace := w.trace ++ [Event.exchange site req res] })

/-- The call `http.NewRequest("GET", url, nil)`; the header is set by the caller. -/
def httpNewRequest (env : Env) (url : String) : Except GoError Request :=
  match env.newRequestErr url with
  | some e => Except.error e
  | none => Except.ok { method := "GET", url := url, header := [] }

/-! ## Library functions on strings, durations and times -/

/-- Wrap-around of a mathematical integer into the range of `int64`. -/
def wrapInt64 (n : Int) : Int :=
  (n + 2 ^ 63) % 2 ^ 64 - 2 ^ 63

/-- The constant `time.Second`, in nanoseconds. -/
def timeSecond : Int := 1000000000

/-- The expression `time.Duration(n) * time.Second`, an `int64` multiplication. -/
def durationSeconds (n : Int) : Int :=
  wrapInt64 (wrapInt64 n * timeSecond)

/-- The method `t.Add(d)`. -/
def timeAdd (t d : Int) : Int := t + d

/-- The function `strings.TrimSuffix`. -/
def stringsTrimSuffix (s suffix : String) : String :=
  if suffix.data.isSuffixOf s.data then
    ⟨s.data.take (s.data.length - suffix.data.length)⟩
  else s

/-- The function `strings.Join`. -/
def stringsJoin (elems : List String) (sep : String) : String :=
  sep.intercalate elems

/-- Assignment `m[key] = val` on a map. -/
def mapSet (m : queryParams) (key val : String) : queryParams :=
  match m with
  | [] => [(key, val)]
  | (k, v) :: rest => if k = key then (k, val) :: rest else (k, v) :: mapSet rest key val

/-- Upper-case hexadecimal digit, as used by `url.QueryEscape`. -/
def upperHex (n : Nat) : Char :=
  "0123456789ABCDEF".data.getD n (Char.ofNat 48)

/-- One byte of `url.QueryEscape`: unreserved bytes are kept, a space becomes `+`, every other
byte becomes `%XX`. -/
def queryEscapeByte (b : UInt8) : List Char :=
  let c := Char.ofNat b.toNat
  if c.isAlphanum ∨ c = Char.ofNat 45 ∨ c = Char.ofNat 95 ∨ c = Char.ofNat 46
      ∨ c = Char.ofNat 126 then [c]
  else if c = Char.ofNat 32 then [Char.ofNat 43]
  else [Char.ofNat 37, upperHex (b.toNat / 16), upperHex (b.toNat % 16)]

/-- The function `url.QueryEscape`, over the UTF-8 bytes of the string. -/
def queryEscape (s : String) : String :=
  ⟨(s.data.flatMap String.utf8EncodeChar).flatMap queryEscapeByte⟩

/-- Insertion of a pair into a list sorted by key. -/
def insertByKey (p : String × String) : List (String × String) → List (String × String)
  | [] => [p]
  | q :: rest => if p.1.data < q.1.data then p :: q :: rest else q :: insertByKey p rest

/-- The pairs of a map in increasing key order, the order in which `Values.Encode` emits. -/
def sortByKey (m : queryParams) : List (String × String) :=
  m.foldr insertByKey []

/-- The loop `values.Add(key, val)` over the map followed by `values.Encode()`: the pairs in
key order, each as `key=value` with both sides escaped, joined by `&`. -/
def valuesEncode (params : queryParams) : String :=
  "&".intercalate ((sortByKey params).map fun p => queryEscape p.1 ++ "=" ++ queryEscape p.2)

/-- Lower-case hexadecimal digit, as used by `encoding/json`. -/
def lowerHex (n : Nat) : Char :=
  "0123456789abcdef".data.getD n (Char.ofNat 48)

/-- One character of a JSON string as `json.Marshal` writes it (HTML escaping on): the quote
and the backslash get a backslash, the control characters their short or `\u00XX` form, and
`<`, `>`, `&`, U+2028, U+2029 their `\uXXXX` form; every other character is copied. -/
def jsonEscapeChar (c : Char) : List Char :=
  let bs := Char.ofNat 92
  if c = bs ∨ c = Char.ofNat 34 then [bs, c]
  else if c = Char.ofNat 8 then [bs, Char.ofNat 98]
  else if c = Char.ofNat 12 then [bs, Char.ofNat 102]
  else if c = Char.ofNat 10 then [bs, Char.ofNat 110]
  else if c = Char.ofNat 13 then [bs, Char.ofNat 114]
  else if c = Char.ofNat 9 then [bs, Char.ofNat 116]
  else if c.toNat < 32 ∨ c = Char.ofNat 60 ∨ c = Char.ofNat 62 ∨ c = Char.ofNat 38 then
    [bs, Char.ofNat 117, Char.ofNat 48, Char.ofNat 48, lowerHex (c.toNat / 16),
      lowerHex (c.toNat % 16)]
  else if c = Char.ofNat 8232 then bs :: "u2028".data
  else if c = Char.ofNat 8233 then bs :: "u2029".data
  else [c]

/-- A JSON string literal as `json.Marshal` writes it. -/
def jsonString (s : String) : String :=
  ⟨Char.ofNat 34 :: (s.data.flatMap jsonEscapeChar ++ [Char.ofNat 34])⟩

/-- The call `json.Marshal(e)` on a `*yError`, with the field names of its tags. -/
def jsonMarshalYError (e : yError) : String :=
  "\x7b\"code\":" ++ jsonString e.Code ++ ",\"description\":" ++ jsonString e.Description
    ++ "\x7d"

/-! ## yerror.go -/

/-- The method `(*yError).Error`. -/
def yError.Error (e : yError) : String :=
  jsonMarshalYError e

/-- The function `CreateArgumentError`. -/
def CreateArgumentError (e : String) : GoError :=
  ⟨"code: " ++ apiErrorCode ++ ", detail: " ++ e⟩

/-- The function `createRemoteError`, applied to the text `e.Error()`. -/
def createRemoteError (e : String) : GoError :=
  ⟨"code: " ++ remoteErrorCode ++ ", detail: " ++ e⟩

/-! ## yclient.go -/

/-- The header literal of the cookie request. -/
def cookieRequestHeader : List (String × String) :=
  [("Accept", "*/*"),
   ("Accept-Encoding", "gzip, deflate, br"),
   ("Accept-Language", "en-US,en;q=0.5"),
   ("Connection", "keep-alive"),
   ("Host", "login.yahoo.com"),
   ("Sec-Fetch-Dest", "document"),
   ("Sec-Fetch-Mode", "navigate"),
   ("Sec-Fetch-Site", "none"),
   ("Sec-Fetch-User", "?1"),
   ("TE", "trailers"),
   ("Update-Insecure-Requests", "1"),
   ("User-Agent", userAgent)]

/-- The header literal of the crumb request. -/
def crumbRequestHeader (cookies : String) : List (String × String) :=
  [("Accept", "*/*"),
   ("Accept-Encoding", "gzip, deflate, br"),
   ("Accept-Language", "en-US,en;q=0.5"),
   ("Connection", "keep-alive"),
   ("Content-Type", "text/plain"),
   ("Cookie", cookies),
   ("Host", "query1.finance.yahoo.com"),
   ("Sec-Fetch-Dest", "empty"),
   ("Sec-Fetch-Mode", "cors"),
   ("Sec-Fetch-Site", "same-site"),
   ("TE", "trailers"),
   ("User-Agent", userAgent)]

/-- The header literal of an authenticated request. -/
def apiRequestHeader (cookies : String) : List (String × String) :=
  [("Accept", "*/*"),
   ("Accept-Language", "en-US,en;q=0.5"),
   ("Connection", "keep-alive"),
   ("Content-Type", "application/json"),
   ("Cookie", cookies),
   ("Host", "query1.finance.yahoo.com"),
   ("Origin", "https://finance.yahoo.com"),
   ("Referer", "https://finance.yahoo.com"),
   ("Sec-Fetch-Dest", "empty"),
   ("Sec-Fetch-Mode", "cors"),
   ("Sec-Fetch-Site", "same-site"),
   ("TE", "trailers"),
   ("User-Agent", userAgent)]

/-- The loop of `fetchCookies` over `response.Cookies()`, carrying the variables `result` and
`expiry`.  A cookie with `MaxAge <= 0` or named `AS` is skipped; an accepted one reads the
clock, is appended to `result`, and replaces `expiry` when its own `Expires` is before its
`cookieExpiry`. -/
def cookieLoop (env : Env) :
    List Cookie → String → Int → World → (String × Int) × World
  | [], result, expiry, w => ((result, expiry), w)
  | cookie :: rest, result, expiry, w =>
    if cookie.MaxAge ≤ 0 ∨ cookie.Name = "AS" then
      cookieLoop env rest result expiry w
    else
      let (now, w1) := timeNow env w
      let cookieExpiry := timeAdd now (durationSeconds cookie.MaxAge)
      let result1 := result ++ (cookie.Name ++ "=" ++ cookie.Value ++ "; ")
      if cookie.Expires < cookieExpiry then
        cookieLoop env rest result1 cookieExpiry w1
      else
        cookieLoop env rest result1 expiry w1

/-- The function `fetchCookies`: the cookie header, the expiry and the error. -/
def fetchCookies (env : Env) (w : World) : (String × Int × Option GoError) × World :=
  match httpNewRequest env cookieURL with
  | Except.error err => (("", 0, some err), w)
  | Except.ok request =>
    let request := { request with header := cookieRequestHeader }
    let (response, w1) := httpClientDo env Site.cookie request w
    match response with
    | Except.error err => (("", 0, some err), w1)
    | Except.ok response =>
      let (now, w2) := timeNow env w1
      let expiry := env.addDate10 now
      let ((result, expiry), w3) := cookieLoop env response.cookies "" expiry w2
      ((stringsTrimSuffix result "; ", expiry, none), w3)

/-- The function `fetchCrumb`: the crumb and the error. -/
def fetchCrumb (env : Env) (cookies : String) (w : World) : (String × Option GoError) × World :=
  match httpNewRequest env crumbURL with
  | Except.error err => (("", some err), w)
  | Except.ok request =>
    let request := { request with header := crumbRequestHeader cookies }
    let (response, w1) := httpClientDo env Site.crumb request w
    match response with
    | Except.error err => (("", some err), w1)
    | Except.ok response =>
      match response.body with
      | Except.error err => (("", some err), w1)
      | Except.ok body => ((body, none), w1)

/-- The method `refreshCrumb`. -/
def refreshCrumb (env : Env) (w : World) : Option GoError × World :=
  let ((cookies, expiry, err), w1) := fetchCookies env w
  match err with
  | some err => (some err, w1)
  | none =>
    let ((crumb, err), w2) := fetchCrumb env cookies w1
    match err with
    | some err => (some err, w2)
    | none =>
      (none, { w2 with client := { crumb := crumb, expiry := expiry, cookies := cookies } })

/-- The method `newRequest`. -/
def newRequest (env : Env) (path : String) (w : World) : Except GoError Request :=
  let path := yFinURL ++ path
  match httpNewRequest env path with
  | Except.error err => Except.error err
  | Except.ok req => Except.ok { req with header := apiRequestHeader w.client.cookies }

/-- The diagnostic dump inside `do`: the file name is built from the `symbols` query value,
the content is what `json.Indent` left in the buffer; both error results are discarded. -/
def dumpResponse (env : Env) (req : Request) (resBodyStr : String) (w : World) : World :=
  let symbol := env.queryGet req.url "symbols"
  let formatted := (env.jsonIndent resBodyStr).1
  let name := env.filepathJoin "c:\\dump\\Queries" (symbol ++ ".json")
  let _ := env.writeFile name formatted
  { w with trace := w.trace ++ [Event.dump name formatted] }

/-- The method `do`.  The target `v` is `none` for a nil interface and `some x` for a pointer
to `x`; `unmarshal` is `json.Unmarshal` at the type of the target.  Returns the error and the
target afterwards. -/
def yClientDo {α : Type} (env : Env) (unmarshal : String → α → α × Option GoError)
    (req : Request) (v : Option α) (w : World) : (Option GoError × Option α) × World :=
  let (_, w1) := timeNow env w
  let (res, w2) := httpClientDo env Site.api req w1
  let (_, w3) := timeNow env w2
  match res with
  | Except.error err => ((some err, v), w3)
  | Except.ok res =>
    match res.body with
    | Except.error err => ((some err, v), w3)
    | Except.ok resBody =>
      let w4 := if enableDump then dumpResponse env req resBody w3 else w3
      if res.StatusCode ≥ 400 then
        ((some ⟨"error response received from upstream api: " ++ res.Status⟩, v), w4)
      else
        match v with
        | some target =>
          let (target1, err) := unmarshal resBody target
          ((err, some target1), w4)
        | none => ((none, none), w4)

/-- What `call` hands back: its error, the decode target and the caller's map, which `call`
updates in place. -/
structure CallResult (α : Type) where
  err : Option GoError
  v : Option α
  params : queryParams

/-- Lines 283-301 of `call`: crumb injection, query string, request construction and `do`. -/
def callSend {α : Type} (env : Env) (unmarshal : String → α → α × Option GoError)
    (path : String) (params : queryParams) (v : Option α) (w : World) :
    CallResult α × World :=
  let params := if w.client.crumb ≠ "" then mapSet params "crumb" w.client.crumb else params
  let path := if params.length > 0 then path ++ "?" ++ valuesEncode params else path
  match newRequest env path w with
  | Except.error err => ({ err := some err, v := v, params := params }, w)
  | Except.ok req =>
    let ((err, v1), w1) := yClientDo env unmarshal req v w
    ({ err := err, v := v1, params := params }, w1)

/-- The method `call`. -/
def call {α : Type} (env : Env) (unmarshal : String → α → α × Option GoError)
    (path : String) (params : queryParams) (v : Option α) (w : World) :
    CallResult α × World :=
  let (now, w1) := timeNow env w
  if w1.client.expiry < now then
    let (err, w2) := refreshCrumb env w1
    match err with
    | some err => ({ err := some err, v := v, params := params }, w2)
    | none => callSend env unmarshal path params v w2
  else
    callSend env unmarshal path params v w1

/-! ## yquote.go -/

/-- The zero value `quoteResponse{}`. -/
def quoteResponseZero : quoteResponse :=
  { Inner := { Result := none, Error := none } }

/-- The function `GetQuotes`: the result slice (nil is `none`) and the error. -/
def GetQuotes (env : Env) (symbols : List String) (w : World) :
    (Option (List Quote) × Option GoError) × World :=
  if symbols.length = 0 then
    ((none, some (CreateArgumentError "No symbols provided to GetQuotes")), w)
  else
    let params : queryParams := [("symbols", stringsJoin symbols ",")]
    let resp : quoteResponse := quoteResponseZero
    let (r, w1) := call env env.unmarshalQuoteResponse yFinQuoteAPI params (some resp) w
    let resp := r.v.getD resp
    match r.err with
    | some err => ((none, some (createRemoteError err.msg)), w1)
    | none =>
      match resp.Inner.Error with
      | some e => ((resp.Inner.Result, some (createRemoteError e.Error)), w1)
      | none => ((resp.Inner.Result, none), w1)

/-! ## Observations on a run -/

/-- The events performed between two states of the process. -/
def newEvents (before after : World) : List Event :=
  after.trace.drop before.trace.length

/-- Whether an event is a transport exchange issued from `site`. -/
def Event.fromSite (site : Site) : Event → Bool
  | Event.exchange s _ _ => decide (s = site)
  | Event.dump _ _ => false

/-- Whether an event is a transport exchange at all. -/
def Event.isExchange : Event → Bool
  | Event.exchange _ _ _ => true
  | Event.dump _ _ => false

/-- The number of transport exchanges issued from `site` among some events. -/
def countSite (site : Site) (evs : List Event) : Nat :=
  (evs.filter (Event.fromSite site)).length

/-- The function `strings.Contains`. -/
def stringsContains (s substr : String) : Prop :=
  substr.data <:+: s.data

instance (s substr : String) : Decidable (stringsContains s substr) :=
  inferInstanceAs (Decidable (substr.data <:+: s.data))

/-- The function `strings.HasPrefix`. -/
def stringsHasPrefix (s pre : String) : Prop :=
  pre.data <+: s.data

instance (s pre : String) : Decidable (stringsHasPrefix s pre) :=
  inferInstanceAs (Decidable (pre.data <+: s.data))

/-- The map `GetQuotes` passes to `call`. -/
def quoteParams (symbols : List String) : queryParams :=
  [("symbols", stringsJoin symbols ",")]

/-- What `do` returns, as a function of the outcome of its transport exchange. -/
def doOutcome {α : Type} (unmarshal : String → α → α × Option GoError) (v : Option α)
    (res : Except GoError Response) : Option GoError × Option α :=
  match res with
  | Except.error err => (some err, v)
  | Except.ok res =>
    match res.body with
    | Except.error err => (some err, v)
    | Except.ok resBody =>
      if res.StatusCode ≥ 400 then
        (some ⟨"error response received from upstream api: " ++ res.Status⟩, v)
      else
        match v with
        | some target => ((unmarshal resBody target).2, some (unmarshal resBody target).1)
        | none => (none, none)

/-- The request sent by `fetchCookies`. -/
def cookieRequest : Request :=
  { method := "GET", url := cookieURL, header := cookieRequestHeader }

/-- The request sent by `fetchCrumb`. -/
def crumbRequest (cookies : String) : Request :=
  { method := "GET", url := crumbURL, header := crumbRequestHeader cookies }

/-! ## Specimen environments -/

/-- A response with status `200 OK`. -/
def okResponse (cookies : List Cookie) (body : String) : Response :=
  { Status := "200 OK", StatusCode := 200, cookies := cookies, body := Except.ok body,
    status_ok := by decide }

/-- A response with status `500 Internal Server Error`. -/
def serverErrorResponse (body : String) : Response :=
  { Status := "500 Internal Server Error", StatusCode := 500, cookies := [],
    body := Except.ok body, status_ok := by decide }

/-- A transport that answers by endpoint: one outcome for the login host, one for the crumb
endpoint, one for every other URL. -/
def scriptedRoundTrip (cookieRes crumbRes apiRes : Except GoError Response) :
    List Event → Request → Except GoError Response :=
  fun _ req =>
    if req.url = cookieURL then cookieRes
    else if req.url = crumbURL then crumbRes
    else apiRes

/-- An environment with a clock that stands at instant `now`, a scripted transport and a given
decoder; every request can be constructed, and ten years are counted as 3652 days. -/
def specimenEnv (now : Int) (cookieRes crumbRes apiRes : Except GoError Response)
    (unmarshal : String → quoteResponse → quoteResponse × Option GoError) : Env :=
  { clock := fun _ => now
    addDate10 := fun t => t + 3652 * 86400 * timeSecond
    newRequestErr := fun _ => none
    cookieURL_ok := rfl
    crumbURL_ok := rfl
    roundTrip := scriptedRoundTrip cookieRes crumbRes apiRes
    unmarshalQuoteResponse := unmarshal
    queryGet := fun _ _ => "AAPL"
    jsonIndent := fun src => (src, none)
    filepathJoin := fun dir name => dir ++ "\\" ++ name
    writeFile := fun _ _ => none }

/-- A decoder that rejects every body. -/
def rejectAll : String → quoteResponse → quoteResponse × Option GoError :=
  fun _ v => (v, some ⟨"unexpected end of JSON input"⟩)

/-- The state of a process that has not called the API yet. -/
def initialWorld : World :=
  { client := { expiry := 0, cookies := "", crumb := "" }, tick := 0, trace := [] }

/-- A state holding a credential that expires at instant `expiry`. -/
def sessionWorld (expiry : Int) : World :=
  { client := { expiry := expiry, cookies := "A1=old", crumb := "oldcrumb" }, tick := 0,
    trace := [] }

/-- The error of a transport that cannot connect. -/
def dialError : GoError := ⟨"dial tcp: connection refused"⟩

/-- An environment whose transport cannot connect; the clock stands at instant 1000. -/
def offlineEnv : Env :=
  specimenEnv 1000 (Except.error dialError) (Except.error dialError) (Except.error dialError)
    rejectAll

/-- An environment whose API answers `500 Internal Server Error`. -/
def serverErrorEnv : Env :=
  specimenEnv 1000 (Except.error dialError) (Except.error dialError)
    (Except.ok (serverErrorResponse "Internal error")) rejectAll

/-- Two session cookies without an `Expires` attribute, living 100 and 200 seconds. -/
def twoCookies : List Cookie :=
  [{ Name := "A1", Value := "d=AQAB", MaxAge := 100, Expires := 0 },
   { Name := "A3", Value := "d=AQCD", MaxAge := 200, Expires := 0 }]

/-- An environment whose login host sets `twoCookies` and whose crumb endpoint answers
`Dq7crumb`; the API cannot be reached. -/
def handshakeEnv : Env :=
  specimenEnv 1000 (Except.ok (okResponse twoCookies "")) (Except.ok (okResponse [] "Dq7crumb"))
    (Except.error dialError) rejectAll

/-- Whether `fetchCookies` accepts a cookie. -/
def accepted (cookie : Cookie) : Bool :=
  !(decide (cookie.MaxAge ≤ 0) || decide (cookie.Name = "AS"))

/-- The expiry rule in the words of the specification: the earliest of `now + MaxAge` seconds
over the accepted cookies, and `fallback` when no cookie is accepted. -/
def specEarliestExpiry (now fallback : Int) (cookies : List Cookie) : Int :=
  match (cookies.filter accepted).map fun c => now + c.MaxAge * timeSecond with
  | [] => fallback
  | t :: ts => ts.foldl min t

/-- A decoder that knows one body: it decodes `body` to `out` and rejects every other body. -/
def tableDecoder (body : String) (out : quoteResponse) :
    String → quoteResponse → quoteResponse × Option GoError :=
  fun b v => if b = body then (out, none) else (v, some ⟨"invalid character"⟩)

/-- A body carrying an embedded error whose code holds the character `<`. -/
def embeddedErrorBody : String :=
  "\x7b\"quoteResponse\":\x7b\"result\":null,\"error\":\x7b\"code\":\"a<b\",\"description\":\"Invalid Crumb\"\x7d\x7d\x7d"

/-- An environment whose API answers `200 OK` with `embeddedErrorBody`. -/
def embeddedErrorEnv : Env :=
  specimenEnv 1000 (Except.error dialError) (Except.error dialError)
    (Except.ok (okResponse [] embeddedErrorBody))
    (tableDecoder embeddedErrorBody
      { Inner := { Result := none,
                   Error := some { Code := "a<b", Description := "Invalid Crumb" } } })

/-- A body carrying an embedded error with plain text. -/
def unauthorizedBody : String :=
  "\x7b\"quoteResponse\":\x7b\"result\":null,\"error\":\x7b\"code\":\"Unauthorized\",\"description\":\"Invalid Crumb\"\x7d\x7d\x7d"

/-- An environment whose API answers `200 OK` with `unauthorizedBody`. -/
def unauthorizedEnv : Env :=
  specimenEnv 1000 (Except.error dialError) (Except.error dialError)
    (Except.ok (okResponse [] unauthorizedBody))
    (tableDecoder unauthorizedBody
      { Inner := { Result := none,
                   Error := some { Code := "Unauthorized", Description := "Invalid Crumb" } } })

/-- The body of the scenario of the specification: one record for `AAPL`. -/
def aaplBody : String :=
  "\x7b\"quoteResponse\":\x7b\"result\":[\x7b\"symbol\":\"AAPL\",\"regularMarketPrice\":150.25\x7d],\"error\":null\x7d\x7d"

/-- The record of the scenario: symbol `AAPL`, regular market price 150.25. -/
def aaplQuote : Quote :=
  { Symbol := some "AAPL", RegularMarketPrice := some (601 / 4) }

/-- An environment whose API answers `200 OK` with `aaplBody`. -/
def aaplEnv : Env :=
  specimenEnv 1000 (Except.error dialError) (Except.error dialError)
    (Except.ok (okResponse [] aaplBody))
    (tableDecoder aaplBody { Inner := { Result := some [aaplQuote], Error := none } })

/-- A body carrying both a record and an embedded error. -/
def mixedBody : String :=
  "\x7b\"quoteResponse\":\x7b\"result\":[\x7b\"symbol\":\"AAPL\"\x7d],\"error\":\x7b\"code\":\"Bad Request\",\"description\":\"Missing value\"\x7d\x7d\x7d"

/-- An environment whose API answers `200 OK` with `mixedBody`. -/
def mixedEnv : Env :=
  specimenEnv 1000 (Except.error dialError) (Except.error dialError)
    (Except.ok (okResponse [] mixedBody))
    (tableDecoder mixedBody
      { Inner := { Result := some [{ Symbol := some "AAPL", RegularMarketPrice := none }],
                   Error := some { Code := "Bad Request", Description := "Missing value" } } })

/-- Lines 283-285 of `call`: the map after the crumb injection. -/
def injectCrumb (client : yClient) (params : queryParams) : queryParams :=
  if client.crumb ≠ "" then mapSet params "crumb" client.crumb else params

/-- Lines 287-293 of `call`: the path, with the encoded query appended when the map is not
empty. -/
def withQuery (path : String) (params : queryParams) : String :=
  if params.length > 0 then path ++ "?" ++ valuesEncode params else path

/-- The error of the freshness check of `call` (lines 273-281): the error of the refresh on a
session whose expiry is before the clock reading, none otherwise. -/
def refreshError (env : Env) (w : World) : Option GoError :=
  if w.client.expiry < env.clock w.tick then
    (refreshCrumb env { w with tick := w.tick + 1 }).1
  else none

/-- The state of the process after the freshness check of `call`: the clock was read, and on
a session whose expiry is before the reading the refresh has run. -/
def worldAtSend (env : Env) (w : World) : World :=
  if w.client.expiry < env.clock w.tick then
    (refreshCrumb env { w with tick := w.tick + 1 }).2
  else { w with tick := w.tick + 1 }

/-- A response with status `300 Multiple Choices`, which the HTTP client hands back as it is. -/
def multipleChoicesResponse (body : String) : Response :=
  { Status := "300 Multiple Choices", StatusCode := 300, cookies := [],
    body := Except.ok body, status_ok := by decide }

/-- An environment whose API answers `300 Multiple Choices` with `aaplBody`. -/
def multipleChoicesEnv : Env :=
  specimenEnv 1000 (Except.error dialError) (Except.error dialError)
    (Except.ok (multipleChoicesResponse aaplBody))
    (tableDecoder aaplBody { Inner := { Result := some [aaplQuote], Error := none } })

/-- An environment whose API answers `500 Internal Server Error` with the body
`quota exceeded for key 42`. -/
def quotaEnv : Env :=
  specimenEnv 1000 (Except.error dialError) (Except.error dialError)
    (Except.ok (serverErrorResponse "quota exceeded for key 42")) rejectAll

/-- Cookies none of which `fetchCookies` accepts: an expired one, a session-only one and the
excluded name. -/
def rejectedCookies : List Cookie :=
  [{ Name := "GUC", Value := "AQAB", MaxAge := -1, Expires := 0 },
   { Name := "B", Value := "x1", MaxAge := 0, Expires := 0 },
   { Name := "AS", Value := "v=1", MaxAge := 3600, Expires := 0 }]

/-- An environment whose login host sets `rejectedCookies`. -/
def rejectedEnv : Env :=
  specimenEnv 1000 (Except.ok (okResponse rejectedCookies "")) (Except.ok (okResponse [] "Dq7crumb"))
    (Except.error dialError) rejectAll

/-- A mix of accepted and rejected cookies. -/
def mixedCookies : List Cookie :=
  [{ Name := "A1", Value := "d=AQAB", MaxAge := 100, Expires := 0 },
   { Name := "AS", Value := "v=1", MaxAge := 3600, Expires := 0 },
   { Name := "GUC", Value := "AQAB", MaxAge := 0, Expires := 0 },
   { Name := "A3", Value := "d=AQCD", MaxAge := 200, Expires := 0 }]

/-- An environment whose login host sets `mixedCookies`. -/
def mixedCookiesEnv : Env :=
  specimenEnv 1000 (Except.ok (okResponse mixedCookies "")) (Except.ok (okResponse [] "Dq7crumb"))
    (Except.error dialError) rejectAll

/-- A response with status `403 Forbidden`. -/
def forbiddenResponse (body : String) : Response :=
  { Status := "403 Forbidden", StatusCode := 403, cookies := [],
    body := Except.ok body, status_ok := by decide }

/-- An environment whose crumb endpoint answers `403 Forbidden` with a body that starts and
ends with blanks. -/
def forbiddenCrumbEnv : Env :=
  specimenEnv 1000 (Except.ok (okResponse twoCookies ""))
    (Except.ok (forbiddenResponse " Too Many Requests\n")) (Except.error dialError) rejectAll

/-- A later state of a process: seven clock readings taken, one dump written, a credential
stored. -/
def laterWorld : World :=
  { client := { expiry := 900, cookies := "A1=old", crumb := "oldcrumb" }, tick := 7,
    trace := [Event.dump "AAPL.json" "null"] }

/-- The lookup `m[key]` on a map (or on a header), with whether the key is present. -/
def mapGet (m : List (String × String)) (key : String) : Option String :=
  match m with
  | [] => none
  | (k, v) :: rest => if k = key then some v else mapGet rest key

/-- The URL of the quote request in the words of the specification: the API base URL and the
quote path, then the query `crumb=<escaped crumb>&symbols=<escaped joined symbols>`, or
`symbols=<escaped joined symbols>` alone when the crumb is empty. -/
def specQuoteURL (crumb : String) (symbols : List String) : String :=
  if crumb ≠ "" then
    "https://query1.finance.yahoo.com/v7/finance/quote?crumb=" ++ queryEscape crumb
      ++ "&symbols=" ++ queryEscape (stringsJoin symbols ",")
  else
    "https://query1.finance.yahoo.com/v7/finance/quote?symbols="
      ++ queryEscape (stringsJoin symbols ",")

/-- The method `do` with the constant `enableDump` turned into the argument `dump`. -/
def doWithDump {α : Type} (dump : Bool) (env : Env)
    (unmarshal : String → α → α × Option GoError)
    (req : Request) (v : Option α) (w : World) : (Option GoError × Option α) × World :=
  let (_, w1) := timeNow env w
  let (res, w2) := httpClientDo env Site.api req w1
  let (_, w3) := timeNow env w2
  match res with
  | Except.error err => ((some err, v), w3)
  | Except.ok res =>
    match res.body with
    | Except.error err => ((some err, v), w3)
    | Except.ok resBody =>
      let w4 := if dump then dumpResponse env req resBody w3 else w3
      if res.StatusCode ≥ 400 then
        ((some ⟨"error response received from upstream api: " ++ res.Status⟩, v), w4)
      else
        match v with
        | some target =>
          let (target1, err) := unmarshal resBody target
          ((err, some target1), w4)
        | none => ((none, none), w4)

/-- The same outside world with other outcomes for the steps of the dump: the query lookup,
`json.Indent`, `filepath.Join` and `os.WriteFile`. -/
def Env.withDump (env : Env) (queryGet : String → String → String)
    (jsonIndent : String → String × Option GoError)
    (filepathJoin : String → String → String)
    (writeFile : String → String → Option GoError) : Env :=
  { env with
    queryGet := queryGet
    jsonIndent := jsonIndent
    filepathJoin := filepathJoin
    writeFile := writeFile }

/-- The candidates of the expiry in the words of the specification: each accepted cookie
(`MaxAge > 0`, name other than `AS`), in order, with its instant `now + MaxAge` seconds, `now`
being the clock reading taken for that cookie; the readings start at reading number `tick`. -/
def specCandidates (env : Env) (tick : Nat) : List Cookie → List (Cookie × Int)
  | [] => []
  | c :: rest =>
    if 0 < c.MaxAge ∧ c.Name ≠ "AS" then
      (c, env.clock tick + c.MaxAge * timeSecond) :: specCandidates env (tick + 1) rest
    else
      specCandidates env tick rest

/-- The last-match rule in the words of the specification: the instant of the last candidate
whose own `Expires` is before its instant, and `fallback` when no candidate passes that
test. -/
def specLastMatchExpiry (fallback : Int) (cands : List (Cookie × Int)) : Int :=
  match (cands.filter fun p => decide (p.1.Expires < p.2)).getLast? with
  | some p => p.2
  | none => fallback

/-- The instant of a clock reading in the year 2023, in nanoseconds since the zero time. -/
def instant2023 : Int := 63800000000000000000

/-- A session cookie whose `Max-Age` exceeds the seconds an `int64` count of nanoseconds can
hold. -/
def hugeMaxAgeCookies : List Cookie :=
  [{ Name := "A1", Value := "d=AQAB", MaxAge := 9223372037, Expires := 0 }]

/-- An environment whose clock stands in 2023 and whose login host sets
`hugeMaxAgeCookies`. -/
def hugeMaxAgeEnv : Env :=
  specimenEnv instant2023 (Except.ok (okResponse hugeMaxAgeCookies ""))
    (Except.ok (okResponse [] "Dq7crumb")) (Except.error dialError) rejectAll

/-- Two accepted cookies living 100 and 200 seconds; the second carries an `Expires` instant
far after its own `now + MaxAge`. -/
def lateExpiresCookies : List Cookie :=
  [{ Name := "A1", Value := "d=AQAB", MaxAge := 100, Expires := 0 },
   { Name := "A3", Value := "d=AQCD", MaxAge := 200, Expires := 900000000000000 }]

/-- An environment whose login host sets `lateExpiresCookies`. -/
def lateExpiresEnv : Env :=
  specimenEnv 1000 (Except.ok (okResponse lateExpiresCookies ""))
    (Except.ok (okResponse [] "Dq7crumb")) (Except.error dialError) rejectAll

/-- A response with status `500 Internal Server Error` whose body cannot be read: the
connection breaks before the body is complete. -/
def truncatedServerErrorResponse : Response :=
  { Status := "500 Internal Server Error", StatusCode := 500, cookies := [],
    body := Except.error ⟨"unexpected EOF"⟩, status_ok := by decide }

/-- An environment whose API answers `500 Internal Server Error` with a body that cannot be
read. -/
def truncatedServerErrorEnv : Env :=
  specimenEnv 1000 (Except.error dialError) (Except.error dialError)
    (Except.ok truncatedServerErrorResponse) rejectAll

/-- A response with status `200 OK` whose body cannot be read. -/
def truncatedOkResponse : Response :=
  { Status := "200 OK", StatusCode := 200, cookies := [],
    body := Except.error ⟨"unexpected EOF"⟩, status_ok := by decide }

/-- An environment whose API answers `200 OK` with a body that cannot be read. -/
def truncatedOkEnv : Env :=
  specimenEnv 1000 (Except.error dialError) (Except.error dialError)
    (Except.ok truncatedOkResponse) rejectAll

/-- The characters of an encoded query: those `url.QueryEscape` emits (letters, digits,
`-`, `_`, `.`, `~`, `+`, `%`) and the `=` and `&` that `Values.Encode` writes between them. -/
def queryChar (c : Char) : Bool :=
  c.isAlphanum || c == Char.ofNat 45 || c == Char.ofNat 95 || c == Char.ofNat 46
    || c == Char.ofNat 126 || c == Char.ofNat 43 || c == Char.ofNat 37
    || c == Char.ofNat 61 || c == Char.ofNat 38

/-- The behaviour of `http.NewRequest` on the URLs the program builds for the quote API: it
accepts the base URL and the quote path followed by `?` and a query made of the characters of
an encoded query. -/
def acceptsQuoteURLs (env : Env) : Prop :=
  ∀ query : String, (∀ c ∈ query.data, queryChar c = true) →
    env.newRequestErr (yFinURL ++ (yFinQuoteAPI ++ "?" ++ query)) = none

/-! ## Lemmas on the credential fetcher -/

theorem cookieLoop_client (env : Env) (cs : List Cookie) (result : String) (expiry : Int)
    (w : World) : (cookieLoop env cs result expiry w).2.client = w.client := by
  induction cs generalizing result expiry w with
  | nil => rfl
  | cons c rest ih =>
    unfold cookieLoop
    split
    · exact ih _ _ _
    · simp only [timeNow]
      split <;> rw [ih]

theorem cookieLoop_trace (env : Env) (cs : List Cookie) (result : String) (expiry : Int)
    (w : World) : (cookieLoop env cs result expiry w).2.trace = w.trace := by
  induction cs generalizing result expiry w with
  | nil => rfl
  | cons c rest ih =>
    unfold cookieLoop
    split
    · exact ih _ _ _
    · simp only [timeNow]
      split <;> rw [ih]

theorem fetchCookies_client (env : Env) (w : World) :
    (fetchCookies env w).2.client = w.client := by
  unfold fetchCookies httpNewRequest
  rw [env.cookieURL_ok]
  simp only [httpClientDo, timeNow]
  split
  · rfl
  · simp only [cookieLoop_client]

theorem fetchCrumb_client (env : Env) (cookies : String) (w : World) :
    (fetchCrumb env cookies w).2.client = w.client := by
  unfold fetchCrumb httpNewRequest
  rw [env.crumbURL_ok]
  simp only [httpClientDo]
  split
  · rfl
  · split <;> rfl

theorem fetchCookies_trace (env : Env) (w : World) :
    (fetchCookies env w).2.trace
      = w.trace ++ [Event.exchange Site.cookie cookieRequest
          (env.roundTrip w.trace cookieRequest)] := by
  unfold fetchCookies httpNewRequest
  rw [env.cookieURL_ok]
  simp only [httpClientDo, timeNow]
  split
  · rename_i err h
    simp only [cookieRequest]
  · rename_i response h
    simp only [cookieLoop_trace, cookieRequest]

theorem fetchCookies_err (env : Env) (w : World) :
    (fetchCookies env w).1.2.2
      = match env.roundTrip w.trace cookieRequest with
        | Except.error err => some err
        | Except.ok _ => none := by
  unfold fetchCookies httpNewRequest
  rw [env.cookieURL_ok]
  simp only [httpClientDo, timeNow, cookieRequest]
  split <;> rename_i h <;> simp only [h]

theorem fetchCrumb_trace (env : Env) (cookies : String) (w : World) :
    (fetchCrumb env cookies w).2.trace
      = w.trace ++ [Event.exchange Site.crumb (crumbRequest cookies)
          (env.roundTrip w.trace (crumbRequest cookies))] := by
  unfold fetchCrumb httpNewRequest
  rw [env.crumbURL_ok]
  simp only [httpClientDo, crumbRequest]
  split
  · rfl
  · split <;> rfl

/-- The events of a refresh: the cookie exchange, followed by the crumb exchange when the
cookie step succeeded. -/
theorem refreshCrumb_trace (env : Env) (w : World) :
    ∃ cres : Except GoError Response,
      ((∃ err, cres = Except.error err)
          ∧ (refreshCrumb env w).1 ≠ none
          ∧ (refreshCrumb env w).2.trace
            = w.trace ++ [Event.exchange Site.cookie cookieRequest cres])
        ∨ ((∃ resp, cres = Except.ok resp)
          ∧ ∃ cookies kres, (refreshCrumb env w).2.trace
            = w.trace ++ [Event.exchange Site.cookie cookieRequest cres,
                Event.exchange Site.crumb (crumbRequest cookies) kres]) := by
  refine ⟨env.roundTrip w.trace cookieRequest, ?_⟩
  have herr := fetchCookies_err env w
  have htr := fetchCookies_trace env w
  unfold refreshCrumb
  simp only
  cases hc : env.roundTrip w.trace cookieRequest with
  | error err =>
    left
    rw [hc] at herr htr
    simp only at herr
    simp only [herr]
    exact ⟨⟨err, rfl⟩, by simp, htr⟩
  | ok resp =>
    right
    rw [hc] at herr htr
    simp only at herr
    simp only [herr]
    refine ⟨⟨resp, rfl⟩, (fetchCookies env w).1.1,
      env.roundTrip (fetchCookies env w).2.trace (crumbRequest (fetchCookies env w).1.1), ?_⟩
    have hk := fetchCrumb_trace env (fetchCookies env w).1.1 (fetchCookies env w).2
    split
    · rw [hk, htr]; simp
    · simp only [hk, htr]; simp

/-! ## Lemmas on the dispatcher -/

theorem newEvents_of_trace (w w1 : World) (evs : List Event)
    (h : w1.trace = w.trace ++ evs) : newEvents w w1 = evs := by
  unfold newEvents
  rw [h]
  simp

theorem yClientDo_fst {α : Type} (env : Env) (unmarshal : String → α → α × Option GoError)
    (req : Request) (v : Option α) (w : World) :
    (yClientDo env unmarshal req v w).1 = doOutcome unmarshal v (env.roundTrip w.trace req) := by
  unfold yClientDo doOutcome
  simp only [timeNow, httpClientDo]
  split
  · rfl
  · split
    · rfl
    · split
      · rfl
      · split <;> rfl

theorem yClientDo_trace {α : Type} (env : Env) (unmarshal : String → α → α × Option GoError)
    (req : Request) (v : Option α) (w : World) :
    ∃ dumps, (yClientDo env unmarshal req v w).2.trace
        = w.trace ++ Event.exchange Site.api req (env.roundTrip w.trace req) :: dumps
      ∧ ∀ ev ∈ dumps, Event.isExchange ev = false := by
  unfold yClientDo
  simp only [timeNow, httpClientDo]
  split
  · exact ⟨[], rfl, by simp⟩
  · split
    · exact ⟨[], rfl, by simp⟩
    · rename_i _ _ _ _ body _
      simp only [enableDump, if_true, dumpResponse]
      refine ⟨[Event.dump (env.filepathJoin "c:\\dump\\Queries"
        (env.queryGet req.url "symbols" ++ ".json")) (env.jsonIndent body).1], ?_,
        by simp [Event.isExchange]⟩
      split
      · simp
      · split <;> simp

theorem yClientDo_client {α : Type} (env : Env) (unmarshal : String → α → α × Option GoError)
    (req : Request) (v : Option α) (w : World) :
    (yClientDo env unmarshal req v w).2.client = w.client := by
  unfold yClientDo
  simp only [timeNow, httpClientDo]
  split
  · rfl
  · split
    · rfl
    · simp only [enableDump, if_true, dumpResponse]
      split
      · rfl
      · split <;> rfl

/-- The events of lines 283-301 of `call`: none when the request cannot be constructed,
otherwise one authenticated exchange followed by dump writes; in the second case the error and
target returned are those `do` derives from the outcome of that exchange. -/
theorem callSend_spec {α : Type} (env : Env) (unmarshal : String → α → α × Option GoError)
    (path : String) (params : queryParams) (v : Option α) (w : World) :
    (callSend env unmarshal path params v w).2.trace = w.trace
      ∨ ∃ req res dumps, (callSend env unmarshal path params v w).2.trace
            = w.trace ++ Event.exchange Site.api req res :: dumps
          ∧ (∀ ev ∈ dumps, Event.isExchange ev = false)
          ∧ (callSend env unmarshal path params v w).1.err = (doOutcome unmarshal v res).1
          ∧ (callSend env unmarshal path params v w).1.v = (doOutcome unmarshal v res).2 := by
  unfold callSend
  simp only
  split
  · left; rfl
  · rename_i req hreq
    right
    obtain ⟨dumps, htr, hd⟩ := yClientDo_trace env unmarshal req v w
    refine ⟨req, env.roundTrip w.trace req, dumps, htr, hd, ?_, ?_⟩
    · simp only [yClientDo_fst]
    · simp only [yClientDo_fst]

theorem refreshCrumb_trace_nonapi (env : Env) (w : World) :
    ∃ revs, (refreshCrumb env w).2.trace = w.trace ++ revs
      ∧ ∀ ev ∈ revs, Event.fromSite Site.api ev = false := by
  obtain ⟨cres, h | h⟩ := refreshCrumb_trace env w
  · exact ⟨_, h.2.2, by simp [Event.fromSite]⟩
  · obtain ⟨_, cookies, kres, h⟩ := h
    exact ⟨_, h, by simp [Event.fromSite]⟩

/-- When a run of `call` performs an authenticated exchange with outcome `res`, the error and
the target it returns are those `do` derives from `res`. -/
theorem call_of_api_exchange {α : Type} (env : Env)
    (unmarshal : String → α → α × Option GoError) (path : String) (params : queryParams)
    (v : Option α) (w : World) (req : Request) (res : Except GoError Response)
    (h : Event.exchange Site.api req res ∈ newEvents w (call env unmarshal path params v w).2) :
    (call env unmarshal path params v w).1.err = (doOutcome unmarshal v res).1
      ∧ (call env unmarshal path params v w).1.v = (doOutcome unmarshal v res).2 := by
  have key : ∀ (w0 : World) (pre : List Event), w0.trace = w.trace ++ pre →
      (∀ ev ∈ pre, Event.fromSite Site.api ev = false) →
      Event.exchange Site.api req res
        ∈ newEvents w (callSend env unmarshal path params v w0).2 →
      (callSend env unmarshal path params v w0).1.err = (doOutcome unmarshal v res).1
        ∧ (callSend env unmarshal path params v w0).1.v = (doOutcome unmarshal v res).2 := by
    intro w0 pre hpre hnon hmem
    rcases callSend_spec env unmarshal path params v w0 with hs | ⟨req0, res0, dumps, hs, hd, he, hv⟩
    · rw [newEvents_of_trace w _ pre (by rw [hs, hpre])] at hmem
      have := hnon _ hmem
      simp [Event.fromSite] at this
    · rw [newEvents_of_trace w _ (pre ++ Event.exchange Site.api req0 res0 :: dumps)
        (by rw [hs, hpre, List.append_assoc])] at hmem
      rcases List.mem_append.mp hmem with hm | hm
      · have := hnon _ hm
        simp [Event.fromSite] at this
      · rcases List.mem_cons.mp hm with hm | hm
        · injection hm with _ _ hres
          subst hres
          exact ⟨he, hv⟩
        · have := hd _ hm
          simp [Event.isExchange] at this
  unfold call at h ⊢
  simp only [timeNow] at h ⊢
  split at h
  · rename_i hstale
    rw [if_pos hstale]
    obtain ⟨revs, hr, hnon⟩ := refreshCrumb_trace_nonapi env { w with tick := w.tick + 1 }
    split at h
    · rename_i err herr
      rw [newEvents_of_trace w _ revs hr] at h
      have := hnon _ h
      simp [Event.fromSite] at this
    · rename_i herr
      exact key _ revs hr hnon h
  · rename_i hfresh
    rw [if_neg hfresh]
    exact key _ [] (by simp) (by simp) h

/-! ## Lemmas on `GetQuotes` -/

theorem GetQuotes_snd (env : Env) (symbols : List String) (w : World) (hne : symbols ≠ []) :
    (GetQuotes env symbols w).2
      = (call env env.unmarshalQuoteResponse yFinQuoteAPI (quoteParams symbols)
          (some quoteResponseZero) w).2 := by
  unfold GetQuotes
  have hlen : ¬ symbols.length = 0 := by
    intro h
    exact hne (List.length_eq_zero.mp h)
  simp only [hlen, if_false, quoteParams]
  split
  · rfl
  · split <;> rfl

theorem GetQuotes_fst_of_err (env : Env) (symbols : List String) (w : World)
    (hne : symbols ≠ []) (e : GoError)
    (h : (call env env.unmarshalQuoteResponse yFinQuoteAPI (quoteParams symbols)
          (some quoteResponseZero) w).1.err = some e) :
    (GetQuotes env symbols w).1 = (none, some (createRemoteError e.msg)) := by
  unfold GetQuotes
  have hlen : ¬ symbols.length = 0 := by
    intro h
    exact hne (List.length_eq_zero.mp h)
  simp only [hlen, if_false]
  simp only [quoteParams] at h
  simp only [h]

theorem GetQuotes_fst_of_ok (env : Env) (symbols : List String) (w : World)
    (hne : symbols ≠ []) (resp : quoteResponse)
    (h : (call env env.unmarshalQuoteResponse yFinQuoteAPI (quoteParams symbols)
          (some quoteResponseZero) w).1.err = none)
    (hv : (call env env.unmarshalQuoteResponse yFinQuoteAPI (quoteParams symbols)
          (some quoteResponseZero) w).1.v = some resp) :
    (GetQuotes env symbols w).1
      = (resp.Inner.Result, resp.Inner.Error.map fun e => createRemoteError e.Error) := by
  unfold GetQuotes
  have hlen : ¬ symbols.length = 0 := by
    intro h
    exact hne (List.length_eq_zero.mp h)
  simp only [hlen, if_false]
  simp only [quoteParams] at h hv
  simp only [h, hv, Option.getD_some]
  split <;> rename_i he <;> simp only [he, Option.map]

theorem cookieLoop_withUnmarshal (env : Env)
    (u : String → quoteResponse → quoteResponse × Option GoError) (cs : List Cookie)
    (result : String) (expiry : Int) (w : World) :
    cookieLoop (env.withUnmarshal u) cs result expiry w = cookieLoop env cs result expiry w := by
  induction cs generalizing result expiry w with
  | nil => rfl
  | cons c rest ih =>
    unfold cookieLoop
    simp only [ih]
    rfl

theorem refreshCrumb_withUnmarshal (env : Env)
    (u : String → quoteResponse → quoteResponse × Option GoError) (w : World) :
    refreshCrumb (env.withUnmarshal u) w = refreshCrumb env w := by
  have hc : fetchCookies (env.withUnmarshal u) w = fetchCookies env w := by
    unfold fetchCookies
    simp only [cookieLoop_withUnmarshal]
    rfl
  unfold refreshCrumb
  rw [hc]
  rfl

theorem call_withUnmarshal {α : Type} (env : Env)
    (u : String → quoteResponse → quoteResponse × Option GoError)
    (unmarshal : String → α → α × Option GoError) (path : String) (params : queryParams)
    (v : Option α) (w : World) :
    call (env.withUnmarshal u) unmarshal path params v w
      = call env unmarshal path params v w := by
  unfold call
  simp only [refreshCrumb_withUnmarshal]
  rfl

theorem call_snd_decoder {α : Type} (env : Env)
    (unmarshal unmarshal1 : String → α → α × Option GoError) (path : String)
    (params : queryParams) (v : Option α) (w : World) :
    (call env unmarshal path params v w).2 = (call env unmarshal1 path params v w).2 := by
  have hdo : ∀ req w0, (yClientDo env unmarshal req v w0).2
      = (yClientDo env unmarshal1 req v w0).2 := by
    intro req w0
    unfold yClientDo
    simp only [timeNow, httpClientDo]
    split
    · rfl
    · split
      · rfl
      · split
        · rfl
        · split <;> rfl
  have hsend : ∀ w0, (callSend env unmarshal path params v w0).2
      = (callSend env unmarshal1 path params v w0).2 := by
    intro w0
    unfold callSend
    simp only
    split
    · rfl
    · exact hdo _ _
  unfold call
  simp only [timeNow]
  split
  · split
    · rfl
    · exact hsend _
  · exact hsend _

theorem createRemoteError_eq (e : String) :
    createRemoteError e = ⟨"code: remote-error, detail: " ++ e⟩ :=
  rfl

theorem stringsContains_append (a b sub : String) (h : sub.data <+: b.data) :
    stringsContains (a ++ b) sub := by
  obtain ⟨t, ht⟩ := h
  refine ⟨a.data, t, ?_⟩
  rw [String.data_append, ← ht, List.append_assoc]

/-- The error `call` returns once its authenticated exchange was answered with a readable
response of status 400 or more, whatever the decoder. -/
theorem call_err_of_error_status (env : Env) (symbols : List String) (w : World)
    (req : Request) (resp : Response) (body : String) (hne : symbols ≠ [])
    (hex : Event.exchange Site.api req (Except.ok resp)
      ∈ newEvents w (GetQuotes env symbols w).2)
    (hbody : resp.body = Except.ok body) (hstatus : 400 ≤ resp.StatusCode)
    (u : String → quoteResponse → quoteResponse × Option GoError) :
    (call env u yFinQuoteAPI (quoteParams symbols) (some quoteResponseZero) w).1.err
      = some ⟨"error response received from upstream api: " ++ resp.Status⟩ := by
  have hex2 : Event.exchange Site.api req (Except.ok resp)
      ∈ newEvents w (call env u yFinQuoteAPI (quoteParams symbols)
          (some quoteResponseZero) w).2 := by
    rw [call_snd_decoder env u env.unmarshalQuoteResponse, ← GetQuotes_snd env symbols w hne]
    exact hex
  rw [(call_of_api_exchange env u _ _ _ w req _ hex2).1]
  simp [doOutcome, hbody, hstatus]

/-- The error and target `call` returns once its authenticated exchange was answered with a
readable response of status below 400. -/
theorem call_of_success_status (env : Env) (symbols : List String) (w : World)
    (req : Request) (resp : Response) (body : String) (hne : symbols ≠ [])
    (hex : Event.exchange Site.api req (Except.ok resp)
      ∈ newEvents w (GetQuotes env symbols w).2)
    (hbody : resp.body = Except.ok body) (hstatus : resp.StatusCode < 400) :
    (call env env.unmarshalQuoteResponse yFinQuoteAPI (quoteParams symbols)
        (some quoteResponseZero) w).1.err
        = (env.unmarshalQuoteResponse body quoteResponseZero).2
      ∧ (call env env.unmarshalQuoteResponse yFinQuoteAPI (quoteParams symbols)
        (some quoteResponseZero) w).1.v
        = some (env.unmarshalQuoteResponse body quoteResponseZero).1 := by
  rw [GetQuotes_snd env symbols w hne] at hex
  have h := call_of_api_exchange env env.unmarshalQuoteResponse _ _ _ w req _ hex
  have hs : ¬ resp.StatusCode ≥ 400 := by omega
  rw [h.1, h.2]
  simp [doOutcome, hbody, hs]

theorem countSite_of_not_exchange (site : Site) (evs : List Event)
    (h : ∀ ev ∈ evs, Event.isExchange ev = false) : countSite site evs = 0 := by
  unfold countSite
  rw [List.length_eq_zero, List.filter_eq_nil_iff]
  intro ev hev
  have := h ev hev
  cases ev with
  | exchange s r x => simp [Event.isExchange] at this
  | dump p c => simp [Event.fromSite]

/-- The events of lines 283-301 of `call` contain no cookie fetch and no crumb fetch. -/
theorem callSend_no_fetch {α : Type} (env : Env) (unmarshal : String → α → α × Option GoError)
    (path : String) (params : queryParams) (v : Option α) (w : World) :
    ∃ tail, (callSend env unmarshal path params v w).2.trace = w.trace ++ tail
      ∧ countSite Site.cookie tail = 0 ∧ countSite Site.crumb tail = 0 := by
  rcases callSend_spec env unmarshal path params v w with hs | ⟨req, res, dumps, hs, hd, _, _⟩
  · exact ⟨[], by rw [hs]; simp, rfl, rfl⟩
  · refine ⟨_, hs, ?_, ?_⟩
    · have := countSite_of_not_exchange Site.cookie dumps hd
      simpa [countSite, Event.fromSite] using this
    · have := countSite_of_not_exchange Site.crumb dumps hd
      simpa [countSite, Event.fromSite] using this

theorem stringsContains_append_left (a b sub : String) (h : stringsContains a sub) :
    stringsContains (a ++ b) sub := by
  obtain ⟨p, t, ht⟩ := h
  refine ⟨p, t ++ b.data, ?_⟩
  rw [String.data_append, ← ht]
  simp

theorem stringsContains_append_right (a b sub : String) (h : stringsContains b sub) :
    stringsContains (a ++ b) sub := by
  obtain ⟨p, t, ht⟩ := h
  refine ⟨a.data ++ p, t, ?_⟩
  rw [String.data_append, ← ht]
  simp

theorem stringsContains_self (s : String) : stringsContains s s :=
  ⟨[], [], by simp⟩

theorem flatMap_jsonEscapeChar_plain (cs : List Char)
    (h : ∀ c ∈ cs, jsonEscapeChar c = [c]) : cs.flatMap jsonEscapeChar = cs := by
  induction cs with
  | nil => rfl
  | cons c rest ih =>
    rw [List.flatMap_cons, h c (List.mem_cons_self _ _),
      ih fun d hd => h d (List.mem_cons_of_mem _ hd)]
    rfl

/-- A string none of whose characters JSON escapes is written verbatim between the quotes. -/
theorem jsonString_contains_plain (s : String)
    (h : ∀ c ∈ s.data, jsonEscapeChar c = [c]) : stringsContains (jsonString s) s := by
  unfold jsonString stringsContains
  rw [flatMap_jsonEscapeChar_plain s.data h]
  exact ⟨[Char.ofNat 34], [Char.ofNat 34], by simp⟩

/-- The serialisation of a `yError` contains the JSON strings of both of its fields. -/
theorem jsonMarshalYError_contains (e : yError) :
    stringsContains (jsonMarshalYError e) (jsonString e.Code)
      ∧ stringsContains (jsonMarshalYError e) (jsonString e.Description) := by
  unfold jsonMarshalYError
  constructor
  · apply stringsContains_append_left
    apply stringsContains_append_left
    apply stringsContains_append_left
    apply stringsContains_append_right
    exact stringsContains_self _
  · apply stringsContains_append_left
    apply stringsContains_append_right
    exact stringsContains_self _

theorem stringsContains_trans (s t u : String) (h1 : stringsContains s t)
    (h2 : stringsContains t u) : stringsContains s u :=
  List.IsInfix.trans h2 h1

/-- A message built by `createRemoteError` does not start like an Argument error. -/
theorem remote_not_argument (detail : String) :
    ¬ stringsHasPrefix ("code: remote-error, detail: " ++ detail) "code: api-error" := by
  intro h
  unfold stringsHasPrefix at h
  rw [String.data_append] at h
  have h2 : "code: api-error".data <+: "code: remote-error, detail: ".data :=
    List.prefix_of_prefix_length_le h (List.prefix_append _ _) (by decide)
  revert h2
  decide

/-- For a non-empty symbol list, `GetQuotes` returns what it makes of the outcome of `call`:
a nil result and the wrapped error when `call` fails, and otherwise the result list of the
decoded envelope together with its embedded error, wrapped, if there is one. -/
theorem GetQuotes_fst (env : Env) (symbols : List String) (w : World) (hne : symbols ≠ []) :
    (GetQuotes env symbols w).1
      = match (call env env.unmarshalQuoteResponse yFinQuoteAPI (quoteParams symbols)
          (some quoteResponseZero) w).1.err with
        | some err => (none, some (createRemoteError err.msg))
        | none =>
          ((((call env env.unmarshalQuoteResponse yFinQuoteAPI (quoteParams symbols)
              (some quoteResponseZero) w).1.v).getD quoteResponseZero).Inner.Result,
            (((call env env.unmarshalQuoteResponse yFinQuoteAPI (quoteParams symbols)
              (some quoteResponseZero) w).1.v).getD quoteResponseZero).Inner.Error.map
                fun e => createRemoteError e.Error) := by
  unfold GetQuotes
  have hlen : ¬ symbols.length = 0 := by
    intro h
    exact hne (List.length_eq_zero.mp h)
  simp only [hlen, if_false, quoteParams]
  split
  · rfl
  · split <;> rename_i he <;> simp only [he, Option.map]

/-- Every error `GetQuotes` returns for a non-empty symbol list is a wrapped message. -/
theorem GetQuotes_error_form (env : Env) (symbols : List String) (w : World)
    (hne : symbols ≠ []) (err : GoError) (herr : (GetQuotes env symbols w).1.2 = some err) :
    ∃ detail, err.msg = "code: remote-error, detail: " ++ detail := by
  rw [GetQuotes_fst env symbols w hne] at herr
  split at herr
  · rename_i e he
    simp only [Option.some.injEq] at herr
    exact ⟨e.msg, by rw [← herr]; rfl⟩
  · simp only [Option.map_eq_some'] at herr
    obtain ⟨e, _, he⟩ := herr
    exact ⟨e.Error, by rw [← he]; rfl⟩

/-! ## Lemmas on the steps of `call` -/

theorem call_eq {α : Type} (env : Env) (unmarshal : String → α → α × Option GoError)
    (path : String) (params : queryParams) (v : Option α) (w : World) :
    call env unmarshal path params v w
      = match refreshError env w with
        | some err => ({ err := some err, v := v, params := params }, worldAtSend env w)
        | none => callSend env unmarshal path params v (worldAtSend env w) := by
  unfold call refreshError worldAtSend
  simp only [timeNow]
  split
  · split <;> rename_i h <;> simp only [h]
  · rfl

theorem callSend_of_newRequest_error {α : Type} (env : Env)
    (unmarshal : String → α → α × Option GoError) (path : String) (params : queryParams)
    (v : Option α) (w : World) (e : GoError)
    (h : newRequest env (withQuery path (injectCrumb w.client params)) w = Except.error e) :
    callSend env unmarshal path params v w
      = ({ err := some e, v := v, params := injectCrumb w.client params }, w) := by
  unfold callSend
  simp only [injectCrumb, withQuery] at h ⊢
  rw [h]

theorem callSend_of_newRequest_ok {α : Type} (env : Env)
    (unmarshal : String → α → α × Option GoError) (path : String) (params : queryParams)
    (v : Option α) (w : World) (req : Request)
    (h : newRequest env (withQuery path (injectCrumb w.client params)) w = Except.ok req) :
    callSend env unmarshal path params v w
      = ({ err := (yClientDo env unmarshal req v w).1.1,
           v := (yClientDo env unmarshal req v w).1.2,
           params := injectCrumb w.client params }, (yClientDo env unmarshal req v w).2) := by
  unfold callSend
  simp only [injectCrumb, withQuery] at h ⊢
  rw [h]

theorem worldAtSend_trace (env : Env) (w : World) :
    ∃ pre, (worldAtSend env w).trace = w.trace ++ pre
      ∧ ∀ ev ∈ pre, Event.fromSite Site.api ev = false := by
  unfold worldAtSend
  split
  · exact refreshCrumb_trace_nonapi env { w with tick := w.tick + 1 }
  · exact ⟨[], by simp, by simp⟩

theorem countSite_append (site : Site) (a b : List Event) :
    countSite site (a ++ b) = countSite site a + countSite site b := by
  unfold countSite
  rw [List.filter_append, List.length_append]

theorem countSite_zero_of_forall (site : Site) (evs : List Event)
    (h : ∀ ev ∈ evs, Event.fromSite site ev = false) : countSite site evs = 0 := by
  unfold countSite
  rw [List.length_eq_zero, List.filter_eq_nil_iff]
  intro ev hev
  simp [h ev hev]

/-! ## Lemmas on the cookie header -/

theorem accepted_eq_false_iff (c : Cookie) :
    accepted c = false ↔ (c.MaxAge ≤ 0 ∨ c.Name = "AS") := by
  unfold accepted
  by_cases h1 : c.MaxAge ≤ 0 <;> by_cases h2 : c.Name = "AS" <;> simp [h1, h2]

theorem accepted_eq_true_iff (c : Cookie) :
    accepted c = true ↔ (0 < c.MaxAge ∧ c.Name ≠ "AS") := by
  unfold accepted
  by_cases h1 : c.MaxAge ≤ 0 <;> by_cases h2 : c.Name = "AS" <;> simp [h1, h2]
  omega

theorem intercalate_go_data (acc sep : String) (xs : List String) :
    (String.intercalate.go acc sep xs).data
      = acc.data ++ xs.flatMap fun x => sep.data ++ x.data := by
  induction xs generalizing acc with
  | nil => simp [String.intercalate.go]
  | cons x rest ih =>
    rw [String.intercalate.go, ih]
    simp [String.data_append, List.append_assoc]

theorem flatMap_append_sep {α : Type} (sep p : List α) (ps : List (List α)) :
    (p :: ps).flatMap (fun x => x ++ sep)
      = p ++ ps.flatMap (fun x => sep ++ x) ++ sep := by
  induction ps generalizing p with
  | nil => simp
  | cons q rest ih =>
    have h := ih q
    simp only [List.flatMap_cons] at h ⊢
    rw [h]
    simp [List.append_assoc]

theorem stringsTrimSuffix_append (s suffix : String) :
    stringsTrimSuffix (s ++ suffix) suffix = s := by
  unfold stringsTrimSuffix
  have hsuf : suffix.data.isSuffixOf (s ++ suffix).data = true := by
    rw [List.isSuffixOf_iff_suffix, String.data_append]
    exact List.suffix_append _ _
  rw [if_pos hsuf]
  apply String.ext
  simp [String.data_append]

/-- The variable `result` after the loop of `fetchCookies`: every accepted cookie, in order,
has appended its `name=value` pair followed by the separator. -/
theorem cookieLoop_result_data (env : Env) (cs : List Cookie) (result : String)
    (expiry : Int) (w : World) :
    (cookieLoop env cs result expiry w).1.1.data
      = result.data ++ ((cs.filter accepted).map fun c => (c.Name ++ "=" ++ c.Value).data).flatMap
          fun x => x ++ "; ".data := by
  induction cs generalizing result expiry w with
  | nil => simp [cookieLoop]
  | cons c rest ih =>
    unfold cookieLoop
    split
    · rename_i hskip
      have hrej : accepted c = false := (accepted_eq_false_iff c).mpr hskip
      rw [ih, List.filter_cons_of_neg (by simp [hrej])]
    · rename_i hkeep
      have hacc : accepted c = true := by
        cases h : accepted c with
        | true => rfl
        | false => exact absurd ((accepted_eq_false_iff c).mp h) hkeep
      simp only [timeNow]
      split <;>
        (rw [ih, List.filter_cons_of_pos hacc]
         simp [String.data_append, List.append_assoc])

/-- The header `fetchCookies` builds from a list of cookies: the pairs of the accepted ones
joined by the separator, with no separator at the end. -/
theorem cookieLoop_header (env : Env) (cs : List Cookie) (expiry : Int) (w : World) :
    stringsTrimSuffix (cookieLoop env cs "" expiry w).1.1 "; "
      = "; ".intercalate ((cs.filter accepted).map fun c => c.Name ++ "=" ++ c.Value) := by
  have hdata := cookieLoop_result_data env cs "" expiry w
  cases hf : cs.filter accepted with
  | nil =>
    rw [hf] at hdata
    have hempty : (cookieLoop env cs "" expiry w).1.1 = "" := String.ext (by simpa using hdata)
    rw [hempty]
    rfl
  | cons a rest =>
    rw [hf] at hdata
    simp only [List.map_cons] at hdata ⊢
    rw [flatMap_append_sep] at hdata
    have hjoin : (cookieLoop env cs "" expiry w).1.1
        = "; ".intercalate ((a.Name ++ "=" ++ a.Value)
            :: rest.map fun c => c.Name ++ "=" ++ c.Value) ++ "; " := by
      apply String.ext
      rw [hdata, String.data_append]
      simp [String.intercalate, intercalate_go_data, List.flatMap_def, Function.comp_def,
        String.data_append]
    rw [hjoin, stringsTrimSuffix_append]

theorem fetchCookies_of_ok (env : Env) (w : World) (resp : Response)
    (h : env.roundTrip w.trace cookieRequest = Except.ok resp) :
    (fetchCookies env w).1
      = (stringsTrimSuffix
          (cookieLoop env resp.cookies "" (env.addDate10 (env.clock w.tick))
            { w with tick := w.tick + 1,
                     trace := w.trace ++ [Event.exchange Site.cookie cookieRequest
                       (Except.ok resp)] }).1.1 "; ",
         (cookieLoop env resp.cookies "" (env.addDate10 (env.clock w.tick))
            { w with tick := w.tick + 1,
                     trace := w.trace ++ [Event.exchange Site.cookie cookieRequest
                       (Except.ok resp)] }).1.2,
         none) := by
  unfold fetchCookies httpNewRequest
  rw [env.cookieURL_ok]
  simp only [httpClientDo, timeNow]
  have h2 : env.roundTrip w.trace
      { method := "GET", url := cookieURL, header := cookieRequestHeader } = Except.ok resp := h
  rw [h2]
  rfl

theorem cookieLoop_all_rejected (env : Env) (cs : List Cookie) (result : String)
    (expiry : Int) (w : World) (h : ∀ c ∈ cs, c.MaxAge ≤ 0 ∨ c.Name = "AS") :
    cookieLoop env cs result expiry w = ((result, expiry), w) := by
  induction cs with
  | nil => rfl
  | cons c rest ih =>
    unfold cookieLoop
    rw [if_pos (h c (List.mem_cons_self _ _))]
    exact ih fun d hd => h d (List.mem_cons_of_mem _ hd)

/-- With clocks that stand at the same instant, the expiry the loop of `fetchCookies` computes
depends on the cookies and the initial expiry only. -/
theorem cookieLoop_expiry_fixed_clock (env1 env2 : Env) (now : Int)
    (h1 : ∀ n, env1.clock n = now) (h2 : ∀ n, env2.clock n = now) (cs : List Cookie)
    (result1 result2 : String) (expiry : Int) (w1 w2 : World) :
    (cookieLoop env1 cs result1 expiry w1).1.2 = (cookieLoop env2 cs result2 expiry w2).1.2 := by
  induction cs generalizing result1 result2 expiry w1 w2 with
  | nil => rfl
  | cons c rest ih =>
    unfold cookieLoop
    by_cases hskip : c.MaxAge ≤ 0 ∨ c.Name = "AS"
    · rw [if_pos hskip, if_pos hskip]
      exact ih _ _ _ _ _
    · rw [if_neg hskip, if_neg hskip]
      simp only [timeNow, h1, h2]
      split <;> exact ih _ _ _ _ _

/-! ## Lemmas on the request -/

theorem mapGet_mapSet_self (m : queryParams) (key val : String) :
    mapGet (mapSet m key val) key = some val := by
  induction m with
  | nil => simp [mapSet, mapGet]
  | cons p rest ih =>
    obtain ⟨k, v⟩ := p
    unfold mapSet
    by_cases hk : k = key
    · simp [hk, mapGet]
    · simp [hk, mapGet, ih]

theorem mapGet_mapSet_other (m : queryParams) (key val other : String) (h : other ≠ key) :
    mapGet (mapSet m key val) other = mapGet m other := by
  induction m with
  | nil => simp [mapSet, mapGet, Ne.symm h]
  | cons p rest ih =>
    obtain ⟨k, v⟩ := p
    unfold mapSet
    by_cases hk : k = key
    · subst hk
      simp [mapGet, Ne.symm h]
    · by_cases ho : k = other
      · subst ho
        simp [h, mapGet]
      · simp [hk, mapGet, ho, ih]

theorem mapSet_keys (m : queryParams) (key val : String) :
    (mapSet m key val).map Prod.fst
      = if key ∈ m.map Prod.fst then m.map Prod.fst else m.map Prod.fst ++ [key] := by
  induction m with
  | nil => simp [mapSet]
  | cons p rest ih =>
    obtain ⟨k, v⟩ := p
    unfold mapSet
    by_cases hk : k = key
    · simp [hk]
    · have hne : ¬ key = k := fun h => hk h.symm
      simp only [hk, if_false, List.map_cons, ih, List.mem_cons, hne, false_or]
      split <;> simp

theorem mapSet_keys_nodup (m : queryParams) (key val : String)
    (h : (m.map Prod.fst).Nodup) : ((mapSet m key val).map Prod.fst).Nodup := by
  rw [mapSet_keys]
  split
  · exact h
  · rename_i hnot
    rw [List.nodup_append]
    exact ⟨h, List.nodup_singleton _, by
      intro a ha hb
      rw [List.mem_singleton] at hb
      exact hnot (hb ▸ ha)⟩

theorem callSend_params {α : Type} (env : Env) (unmarshal : String → α → α × Option GoError)
    (path : String) (params : queryParams) (v : Option α) (w : World) :
    (callSend env unmarshal path params v w).1.params = injectCrumb w.client params := by
  unfold callSend
  simp only [injectCrumb]
  split <;> rfl

theorem newRequest_ok_eq (env : Env) (path : String) (w : World) (req : Request)
    (h : newRequest env path w = Except.ok req) :
    req = { method := "GET", url := yFinURL ++ path,
            header := apiRequestHeader w.client.cookies } := by
  unfold newRequest httpNewRequest at h
  cases hn : env.newRequestErr (yFinURL ++ path) with
  | some e =>
    simp only [hn] at h
    cases h
  | none =>
    simp only [hn, Except.ok.injEq] at h
    exact h.symm

theorem newRequest_of_none (env : Env) (path : String) (w : World)
    (h : env.newRequestErr (yFinURL ++ path) = none) :
    newRequest env path w
      = Except.ok { method := "GET", url := yFinURL ++ path,
                    header := apiRequestHeader w.client.cookies } := by
  unfold newRequest httpNewRequest
  simp only [h]

/-- Every authenticated request a run of `call` issues is the `GET` on the base URL followed
by the path and the encoded parameters, the crumb of the state after the freshness check
injected, with the header set of that state. -/
theorem call_api_request {α : Type} (env : Env)
    (unmarshal : String → α → α × Option GoError) (path : String) (params : queryParams)
    (v : Option α) (w : World) (req : Request) (res : Except GoError Response)
    (h : Event.exchange Site.api req res ∈ newEvents w (call env unmarshal path params v w).2) :
    req = { method := "GET",
            url := yFinURL ++ withQuery path (injectCrumb (worldAtSend env w).client params),
            header := apiRequestHeader (worldAtSend env w).client.cookies } := by
  obtain ⟨pre, hpre, hnon⟩ := worldAtSend_trace env w
  have hnotpre : ¬ Event.exchange Site.api req res ∈ pre := by
    intro hm
    have := hnon _ hm
    simp [Event.fromSite] at this
  rw [call_eq] at h
  cases hre : refreshError env w with
  | some e =>
    rw [hre] at h
    rw [newEvents_of_trace w _ pre hpre] at h
    exact absurd h hnotpre
  | none =>
    rw [hre] at h
    cases hn : newRequest env
        (withQuery path (injectCrumb (worldAtSend env w).client params)) (worldAtSend env w) with
    | error e =>
      rw [callSend_of_newRequest_error env unmarshal path params v _ e hn,
        newEvents_of_trace w _ pre hpre] at h
      exact absurd h hnotpre
    | ok req0 =>
      rw [callSend_of_newRequest_ok env unmarshal path params v _ req0 hn] at h
      obtain ⟨dumps, htr, hd⟩ := yClientDo_trace env unmarshal req0 v (worldAtSend env w)
      rw [newEvents_of_trace w (yClientDo env unmarshal req0 v (worldAtSend env w)).2
        (pre ++ Event.exchange Site.api req0
          (env.roundTrip (worldAtSend env w).trace req0) :: dumps)
        (by rw [htr, hpre, List.append_assoc])] at h
      rcases List.mem_append.mp h with hm | hm
      · exact absurd hm hnotpre
      · rcases List.mem_cons.mp hm with hm | hm
        · injection hm with _ hreq _
          rw [hreq]
          exact newRequest_ok_eq env _ _ req0 hn
        · have := hd _ hm
          simp [Event.isExchange] at this

theorem queryEscape_crumb_key : queryEscape "crumb" = "crumb" := by decide

theorem queryEscape_symbols_key : queryEscape "symbols" = "symbols" := by decide

theorem valuesEncode_symbols (joined : String) :
    valuesEncode [("symbols", joined)] = "symbols=" ++ queryEscape joined := by
  simp only [valuesEncode, sortByKey, List.foldr, insertByKey, List.map, String.intercalate,
    String.intercalate.go, queryEscape_symbols_key]
  rfl

theorem valuesEncode_crumb_symbols (crumb joined : String) :
    valuesEncode [("symbols", joined), ("crumb", crumb)]
      = "crumb=" ++ queryEscape crumb ++ "&symbols=" ++ queryEscape joined := by
  have hlt : ¬ ("symbols".data < "crumb".data) := by decide
  simp only [valuesEncode, sortByKey, List.foldr, insertByKey, hlt, if_false, List.map,
    String.intercalate, String.intercalate.go, queryEscape_symbols_key, queryEscape_crumb_key]
  apply String.ext
  simp [String.data_append]

/-- The URL `call` builds for `GetQuotes` is the URL of the specification. -/
theorem quote_url_eq (client : yClient) (symbols : List String) :
    yFinURL ++ withQuery yFinQuoteAPI (injectCrumb client (quoteParams symbols))
      = specQuoteURL client.crumb symbols := by
  unfold specQuoteURL injectCrumb quoteParams withQuery
  by_cases hc : client.crumb = ""
  · have hc2 : ¬ client.crumb ≠ "" := fun h => h hc
    simp only [hc2, if_false, List.length_singleton, gt_iff_lt, Nat.lt_one_iff,
      Nat.zero_lt_one, if_true, valuesEncode_symbols]
    apply String.ext
    simp [String.data_append, yFinURL, yFinQuoteAPI]
  · have hc2 : client.crumb ≠ "" := hc
    have hset : mapSet [("symbols", stringsJoin symbols ",")] "crumb" client.crumb
        = [("symbols", stringsJoin symbols ","), ("crumb", client.crumb)] := by
      have hk : ¬ ("symbols" = "crumb") := by decide
      simp [mapSet, hk]
    simp only [hc2, if_true, hset, List.length_cons, List.length_nil, gt_iff_lt,
      Nat.zero_lt_succ, valuesEncode_crumb_symbols, ne_eq, not_false_eq_true]
    apply String.ext
    simp [String.data_append, yFinURL, yFinQuoteAPI]

/-! ## Lemmas on the expiry -/

/-- As long as `MaxAge` seconds fit an `int64` count of nanoseconds, the duration
`time.Duration(MaxAge) * time.Second` is `MaxAge` seconds. -/
theorem durationSeconds_eq (n : Int) (h0 : 0 < n) (h1 : n ≤ 9223372036) :
    durationSeconds n = n * timeSecond := by
  have hp63 : (2 : Int) ^ 63 = 9223372036854775808 := by norm_num
  have hp64 : (2 : Int) ^ 64 = 18446744073709551616 := by norm_num
  unfold durationSeconds wrapInt64 timeSecond
  rw [hp63, hp64]
  omega

theorem specLastMatchExpiry_cons (fallback : Int) (p : Cookie × Int)
    (ps : List (Cookie × Int)) :
    specLastMatchExpiry fallback (p :: ps)
      = if p.1.Expires < p.2 then specLastMatchExpiry p.2 ps
        else specLastMatchExpiry fallback ps := by
  unfold specLastMatchExpiry
  by_cases hp : p.1.Expires < p.2
  · rw [if_pos hp, List.filter_cons_of_pos (by simpa using hp)]
    cases hf : ps.filter fun q => decide (q.1.Expires < q.2) with
    | nil => rfl
    | cons q qs =>
      rw [List.getLast?_cons_cons]
      cases hl : (q :: qs).getLast? with
      | none => simp at hl
      | some x => rfl
  · rw [if_neg hp, List.filter_cons_of_neg (by simpa using hp)]

/-- The variable `expiry` after the loop of `fetchCookies`, for cookies whose `MaxAge`
seconds fit a duration: the last-match rule over the candidates, the value of `expiry` before
the loop serving only as the fallback. -/
theorem cookieLoop_last_match (env : Env) (cs : List Cookie) (result : String)
    (expiry : Int) (w : World) (hrange : ∀ c ∈ cs, c.MaxAge ≤ 9223372036) :
    (cookieLoop env cs result expiry w).1.2
      = specLastMatchExpiry expiry (specCandidates env w.tick cs) := by
  induction cs generalizing result expiry w with
  | nil => rfl
  | cons c rest ih =>
    have hrest : ∀ d ∈ rest, d.MaxAge ≤ 9223372036 :=
      fun d hd => hrange d (List.mem_cons_of_mem _ hd)
    unfold cookieLoop specCandidates
    by_cases hskip : c.MaxAge ≤ 0 ∨ c.Name = "AS"
    · have hno : ¬ (0 < c.MaxAge ∧ c.Name ≠ "AS") := by
        rintro ⟨hpos, hname⟩
        rcases hskip with h | h
        · omega
        · exact hname h
      rw [if_pos hskip, if_neg hno]
      exact ih _ _ _ hrest
    · have hyes : 0 < c.MaxAge ∧ c.Name ≠ "AS" := by
        constructor
        · by_contra hle
          exact hskip (Or.inl (by omega))
        · intro hname
          exact hskip (Or.inr hname)
      have hdur : durationSeconds c.MaxAge = c.MaxAge * timeSecond :=
        durationSeconds_eq c.MaxAge hyes.1 (hrange c (List.mem_cons_self _ _))
      rw [if_neg hskip, if_pos hyes, specLastMatchExpiry_cons]
      simp only [timeNow, timeAdd, hdur]
      split
      · rw [ih _ _ _ hrest]
      · rw [ih _ _ _ hrest]

/-! ## Lemmas on the encoded query -/

theorem upperHex_isAlphanum (n : Nat) : (upperHex n).isAlphanum = true := by
  unfold upperHex
  by_cases h : n < 16
  · interval_cases n <;> rfl
  · rw [List.getD_eq_default _ _ (by simpa using Nat.le_of_not_lt h)]
    rfl

theorem queryChar_of_isAlphanum (c : Char) (h : c.isAlphanum = true) : queryChar c = true := by
  simp [queryChar, h]

theorem queryEscapeByte_chars (b : UInt8) (c : Char) (h : c ∈ queryEscapeByte b) :
    queryChar c = true := by
  unfold queryEscapeByte at h
  simp only at h
  split at h
  · rename_i hkeep
    rw [List.mem_singleton] at h
    subst h
    rcases hkeep with hk | hk | hk | hk | hk
    · exact queryChar_of_isAlphanum _ hk
    all_goals simp [queryChar, hk]
  · split at h
    · rw [List.mem_singleton] at h
      subst h
      rfl
    · simp only [List.mem_cons, List.mem_singleton, List.not_mem_nil, or_false] at h
      rcases h with h | h | h
      · subst h
        rfl
      · subst h
        exact queryChar_of_isAlphanum _ (upperHex_isAlphanum _)
      · subst h
        exact queryChar_of_isAlphanum _ (upperHex_isAlphanum _)

theorem queryEscape_chars (s : String) (c : Char) (h : c ∈ (queryEscape s).data) :
    queryChar c = true := by
  unfold queryEscape at h
  simp only [List.mem_flatMap] at h
  obtain ⟨b, _, hb⟩ := h
  exact queryEscapeByte_chars b c hb

/-- Every character of the output of `Values.Encode` is a character of an encoded query. -/
theorem valuesEncode_chars (params : queryParams) (c : Char)
    (h : c ∈ (valuesEncode params).data) : queryChar c = true := by
  unfold valuesEncode at h
  have hpair : ∀ p : String × String, ∀ d ∈ (queryEscape p.1 ++ "=" ++ queryEscape p.2).data,
      queryChar d = true := by
    intro p d hd
    simp only [String.data_append, List.mem_append] at hd
    rcases hd with (hd | hd) | hd
    · exact queryEscape_chars _ _ hd
    · have : d = Char.ofNat 61 := by simpa using hd
      subst this
      rfl
    · exact queryEscape_chars _ _ hd
  cases hs : sortByKey params with
  | nil =>
    rw [hs] at h
    simp [String.intercalate] at h
  | cons p rest =>
    rw [hs] at h
    simp only [List.map_cons, String.intercalate, intercalate_go_data, List.mem_append,
      List.mem_flatMap, List.mem_map] at h
    rcases h with h | ⟨x, ⟨q, _, hq⟩, hx⟩
    · exact hpair p c h
    · subst hq
      rcases hx with hx | hx
      · have : c = Char.ofNat 38 := by simpa using hx
        subst this
        rfl
      · exact hpair q c hx

theorem injectCrumb_quoteParams_length (client : yClient) (symbols : List String) :
    (injectCrumb client (quoteParams symbols)).length > 0 := by
  unfold injectCrumb quoteParams
  split
  · simp only [mapSet]
    split <;> simp
  · simp

/-- With a library that accepts the quote URLs, the request of a call made by `GetQuotes` can
always be constructed: the query `call` appends is fully escaped. -/
theorem newRequest_quote_ok (env : Env) (hlib : acceptsQuoteURLs env) (symbols : List String)
    (w : World) :
    newRequest env (withQuery yFinQuoteAPI (injectCrumb w.client (quoteParams symbols))) w
      = Except.ok
          { method := "GET",
            url := yFinURL
              ++ withQuery yFinQuoteAPI (injectCrumb w.client (quoteParams symbols)),
            header := apiRequestHeader w.client.cookies } := by
  apply newRequest_of_none
  unfold withQuery
  rw [if_pos (injectCrumb_quoteParams_length w.client symbols)]
  exact hlib _ (valuesEncode_chars _)

theorem call_err_of_unreadable_body (env : Env) (symbols : List String) (w : World)
    (req : Request) (resp : Response) (e : GoError) (hne : symbols ≠ [])
    (hex : Event.exchange Site.api req (Except.ok resp)
      ∈ newEvents w (GetQuotes env symbols w).2)
    (hbody : resp.body = Except.error e)
    (u : String → quoteResponse → quoteResponse × Option GoError) :
    (call env u yFinQuoteAPI (quoteParams symbols) (some quoteResponseZero) w).1.err
      = some e := by
  have hex2 : Event.exchange Site.api req (Except.ok resp)
      ∈ newEvents w (call env u yFinQuoteAPI (quoteParams symbols)
          (some quoteResponseZero) w).2 := by
    rw [call_snd_decoder env u env.unmarshalQuoteResponse, ← GetQuotes_snd env symbols w hne]
    exact hex
  rw [(call_of_api_exchange env u _ _ _ w req _ hex2).1]
  simp [doOutcome, hbody]

/-- The authenticated requests of a run of `call`, by the outcome of request construction:
when the refresh fails, `call` returns its error and issues none; when no refresh was needed
or the refresh succeeded, it issues none if the request cannot be constructed, and otherwise
exactly one, followed by nothing but the dump write, the error returned being the one `do`
derives from the outcome of that request. -/
theorem call_outcome_by_construction {α : Type} (env : Env)
    (unmarshal : String → α → α × Option GoError) (path : String) (params : queryParams)
    (v : Option α) (w : World) :
    (∀ e, refreshError env w = some e →
        (call env unmarshal path params v w).1.err = some e
        ∧ countSite Site.api (newEvents w (call env unmarshal path params v w).2) = 0)
      ∧ (refreshError env w = none →
        (∀ e, newRequest env
              (withQuery path (injectCrumb (worldAtSend env w).client params))
              (worldAtSend env w) = Except.error e →
            (call env unmarshal path params v w).1.err = some e
            ∧ countSite Site.api (newEvents w (call env unmarshal path params v w).2) = 0)
        ∧ (∀ req, newRequest env
              (withQuery path (injectCrumb (worldAtSend env w).client params))
              (worldAtSend env w) = Except.ok req →
            ∃ pre res dumps,
              newEvents w (call env unmarshal path params v w).2
                  = pre ++ Event.exchange Site.api req res :: dumps
                ∧ countSite Site.api pre = 0
                ∧ (∀ ev ∈ dumps, Event.isExchange ev = false)
                ∧ countSite Site.api
                    (newEvents w (call env unmarshal path params v w).2) = 1
                ∧ (call env unmarshal path params v w).1.err
                    = (doOutcome unmarshal v res).1)) := by
  obtain ⟨pre, hpre, hnon⟩ := worldAtSend_trace env w
  have hpre0 : countSite Site.api pre = 0 := countSite_zero_of_forall _ _ hnon
  refine ⟨?_, ?_⟩
  · intro e he
    rw [call_eq, he]
    refine ⟨rfl, ?_⟩
    rw [newEvents_of_trace w _ pre hpre]
    exact hpre0
  · intro hnone
    rw [call_eq, hnone]
    refine ⟨?_, ?_⟩
    · intro e he
      rw [callSend_of_newRequest_error env unmarshal path params v _ e he]
      refine ⟨rfl, ?_⟩
      rw [newEvents_of_trace w _ pre hpre]
      exact hpre0
    · intro req hreq
      rw [callSend_of_newRequest_ok env unmarshal path params v _ req hreq]
      obtain ⟨dumps, htr, hd⟩ := yClientDo_trace env unmarshal req v (worldAtSend env w)
      have hev := newEvents_of_trace w (yClientDo env unmarshal req v (worldAtSend env w)).2
        (pre ++ Event.exchange Site.api req
          (env.roundTrip (worldAtSend env w).trace req) :: dumps)
        (by rw [htr, hpre, List.append_assoc])
      refine ⟨pre, env.roundTrip (worldAtSend env w).trace req, dumps, hev, hpre0, hd, ?_, ?_⟩
      · show countSite Site.api (newEvents w
          (yClientDo env unmarshal req v (worldAtSend env w)).2) = 1
        rw [hev, countSite_append, hpre0]
        have := countSite_of_not_exchange Site.api dumps hd
        simpa [countSite, Event.fromSite] using this
      · show (yClientDo env unmarshal req v (worldAtSend env w)).1.1 = _
        rw [yClientDo_fst]

/-! ## Claims -/

/-- C1: for the empty symbol list `GetQuotes` returns a nil result and the Argument error
with message `code: api-error, detail: No symbols provided to GetQuotes`, and the process state
is returned as it was: no event (no cookie fetch, no crumb fetch, no authenticated request) is
performed and the stored credential is unchanged. -/
theorem GetQuotes_empty_symbols (env : Env) (w : World) :
    GetQuotes env [] w =
        ((none, some ⟨"code: api-error, detail: No symbols provided to GetQuotes"⟩), w)
      ∧ newEvents w (GetQuotes env [] w).2 = []
      ∧ (GetQuotes env [] w).2.client = w.client := by
  refine ⟨rfl, ?_, rfl⟩
  show List.drop w.trace.length w.trace = []
  simp

/-- C2, as stated, fails: the stored expiry (5) is before the current time (1000) and the
transport cannot connect, so one cookie fetch is issued and no crumb fetch. -/
theorem call_stale_cookie_failure_no_crumb_fetch :
    (sessionWorld 5).client.expiry < offlineEnv.clock (sessionWorld 5).tick
      ∧ countSite Site.cookie (newEvents (sessionWorld 5)
          (call offlineEnv rejectAll yFinQuoteAPI (quoteParams ["AAPL"])
            (some quoteResponseZero) (sessionWorld 5)).2) = 1
      ∧ countSite Site.crumb (newEvents (sessionWorld 5)
          (call offlineEnv rejectAll yFinQuoteAPI (quoteParams ["AAPL"])
            (some quoteResponseZero) (sessionWorld 5)).2) = 0 := by
  refine ⟨by decide, rfl, rfl⟩

/-- C2, amended: on a client whose stored expiry is before the current time, `call` first
issues exactly one cookie fetch; when that fetch fails nothing else is issued; when it succeeds
exactly one crumb fetch follows, and whatever comes after these two (the authenticated
request) contains no further cookie or crumb fetch.  On a client whose stored expiry is not
before the current time, no cookie fetch and no crumb fetch is issued. -/
theorem call_refresh_events {α : Type} (env : Env)
    (unmarshal : String → α → α × Option GoError) (path : String) (params : queryParams)
    (v : Option α) (w : World) :
    (w.client.expiry < env.clock w.tick →
        ∃ cres rest, newEvents w (call env unmarshal path params v w).2
            = Event.exchange Site.cookie cookieRequest cres :: rest
          ∧ countSite Site.cookie (newEvents w (call env unmarshal path params v w).2) = 1
          ∧ ((∃ err, cres = Except.error err) → rest = [])
          ∧ ((∃ resp, cres = Except.ok resp) →
              ∃ cookies kres tail,
                rest = Event.exchange Site.crumb (crumbRequest cookies) kres :: tail
                ∧ countSite Site.cookie tail = 0 ∧ countSite Site.crumb tail = 0
                ∧ countSite Site.crumb
                    (newEvents w (call env unmarshal path params v w).2) = 1))
      ∧ (¬ w.client.expiry < env.clock w.tick →
          countSite Site.cookie (newEvents w (call env unmarshal path params v w).2) = 0
          ∧ countSite Site.crumb (newEvents w (call env unmarshal path params v w).2) = 0) := by
  constructor
  · intro hstale
    unfold call
    simp only [timeNow, hstale, if_true]
    obtain ⟨cres, h | h⟩ := refreshCrumb_trace env { w with tick := w.tick + 1 }
    · obtain ⟨⟨err, hcres⟩, hfail, htr⟩ := h
      refine ⟨cres, [], ?_⟩
      have hev : newEvents w (refreshCrumb env { w with tick := w.tick + 1 }).2
          = [Event.exchange Site.cookie cookieRequest cres] :=
        newEvents_of_trace w _ _ htr
      split
      · refine ⟨hev, ?_, fun _ => rfl, ?_⟩
        · rw [hev]; rfl
        · rintro ⟨resp, hresp⟩
          rw [hcres] at hresp
          cases hresp
      · rename_i hnone
        exact absurd hnone hfail
    · obtain ⟨⟨resp, hcres⟩, cookies, kres, htr⟩ := h
      split
      · have hev := newEvents_of_trace w _ _ htr
        refine ⟨cres, [Event.exchange Site.crumb (crumbRequest cookies) kres], hev, ?_, ?_, ?_⟩
        · rw [hev]; rfl
        · rintro ⟨err, herr⟩
          rw [hcres] at herr
          cases herr
        · intro _
          exact ⟨cookies, kres, [], rfl, rfl, rfl, by rw [hev]; rfl⟩
      · obtain ⟨tail, hs, hc1, hc2⟩ := callSend_no_fetch env unmarshal path params v
          (refreshCrumb env { w with tick := w.tick + 1 }).2
        have hev := newEvents_of_trace w _
          (Event.exchange Site.cookie cookieRequest cres
            :: Event.exchange Site.crumb (crumbRequest cookies) kres :: tail)
          (by rw [hs, htr]; simp)
        refine ⟨cres, Event.exchange Site.crumb (crumbRequest cookies) kres :: tail, hev,
          ?_, ?_, ?_⟩
        · rw [hev]
          simpa [countSite, Event.fromSite] using hc1
        · rintro ⟨err, herr⟩
          rw [hcres] at herr
          cases herr
        · intro _
          refine ⟨cookies, kres, tail, rfl, hc1, hc2, ?_⟩
          rw [hev]
          simpa [countSite, Event.fromSite] using hc2
  · intro hfresh
    unfold call
    simp only [timeNow, hfresh, if_false]
    obtain ⟨tail, hs, hc1, hc2⟩ := callSend_no_fetch env unmarshal path params v
      { w with tick := w.tick + 1 }
    rw [newEvents_of_trace w _ tail hs]
    exact ⟨hc1, hc2⟩

/-- Witness for C2: a first call (stored expiry 0, clock at 1000) issues exactly one cookie
fetch; a call on a session expiring at 5000 issues no cookie fetch and no crumb fetch. -/
theorem call_refresh_events_witness :
    countSite Site.cookie (newEvents initialWorld
        (call handshakeEnv rejectAll yFinQuoteAPI (quoteParams ["AAPL"])
          (some quoteResponseZero) initialWorld).2) = 1
      ∧ countSite Site.cookie (newEvents (sessionWorld 5000)
        (call handshakeEnv rejectAll yFinQuoteAPI (quoteParams ["AAPL"])
          (some quoteResponseZero) (sessionWorld 5000)).2) = 0
      ∧ countSite Site.crumb (newEvents (sessionWorld 5000)
        (call handshakeEnv rejectAll yFinQuoteAPI (quoteParams ["AAPL"])
          (some quoteResponseZero) (sessionWorld 5000)).2) = 0 :=
  ⟨match (call_refresh_events handshakeEnv rejectAll yFinQuoteAPI (quoteParams ["AAPL"])
        (some quoteResponseZero) initialWorld).1 (by decide) with
    | ⟨_, _, _, h, _⟩ => h,
   (call_refresh_events handshakeEnv rejectAll yFinQuoteAPI (quoteParams ["AAPL"])
      (some quoteResponseZero) (sessionWorld 5000)).2 (by decide)⟩

/-- C3: when `refreshCrumb` fails with error `e`, the stored cookies, crumb and expiry are
what they were before, and `e` is the error of the step that failed: the error of
`fetchCookies`, or, that one having succeeded, the error of `fetchCrumb` called with the
fetched cookies. -/
theorem refreshCrumb_failure_keeps_bundle (env : Env) (w : World) (e : GoError)
    (h : (refreshCrumb env w).1 = some e) :
    (refreshCrumb env w).2.client = w.client
      ∧ ((fetchCookies env w).1.2.2 = some e
        ∨ ((fetchCookies env w).1.2.2 = none
          ∧ (fetchCrumb env (fetchCookies env w).1.1 (fetchCookies env w).2).1.2 = some e)) := by
  unfold refreshCrumb at h ⊢
  simp only at h ⊢
  split at h
  · rename_i err hce
    simp only [Option.some.injEq] at h
    subst h
    simp only [hce]
    exact ⟨fetchCookies_client env w, Or.inl trivial⟩
  · rename_i hce
    split at h
    · rename_i err hke
      simp only [Option.some.injEq] at h
      subst h
      simp only [hce, hke]
      refine ⟨?_, Or.inr ⟨trivial, trivial⟩⟩
      rw [fetchCrumb_client, fetchCookies_client]
    · simp at h

/-- Witness for C3: the transport cannot connect, so the cookie step fails. -/
theorem refreshCrumb_failure_keeps_bundle_witness :
    (refreshCrumb offlineEnv (sessionWorld 5)).1 = some dialError
      ∧ (refreshCrumb offlineEnv (sessionWorld 5)).2.client
        = { expiry := 5, cookies := "A1=old", crumb := "oldcrumb" } :=
  ⟨rfl, (refreshCrumb_failure_keeps_bundle offlineEnv (sessionWorld 5) dialError rfl).1⟩

/-- C4: when the cookie step succeeds with `(cookies, expiry)` and the crumb step, called
with those cookies, succeeds with `crumb`, `refreshCrumb` returns no error and the stored
bundle is exactly the three fetched values. -/
theorem refreshCrumb_success_replaces_bundle (env : Env) (w w1 w2 : World)
    (cookies crumb : String) (expiry : Int)
    (hc : fetchCookies env w = ((cookies, expiry, none), w1))
    (hk : fetchCrumb env cookies w1 = ((crumb, none), w2)) :
    (refreshCrumb env w).1 = none
      ∧ (refreshCrumb env w).2.client
        = { expiry := expiry, cookies := cookies, crumb := crumb }
      ∧ (refreshCrumb env w).2.trace = w2.trace := by
  unfold refreshCrumb
  simp only [hc, hk]
  exact ⟨trivial, trivial, trivial⟩

/-- Witness for C4: the login host sets two cookies and the crumb endpoint answers
`Dq7crumb`; the old bundle (`A1=old`, `oldcrumb`, expiry 5) is replaced as a whole. -/
theorem refreshCrumb_success_replaces_bundle_witness :
    (refreshCrumb handshakeEnv (sessionWorld 5)).1 = none
      ∧ (refreshCrumb handshakeEnv (sessionWorld 5)).2.client
        = { expiry := 200000001000, cookies := "A1=d=AQAB; A3=d=AQCD", crumb := "Dq7crumb" } :=
  ⟨(refreshCrumb_success_replaces_bundle handshakeEnv (sessionWorld 5) _ _
      "A1=d=AQAB; A3=d=AQCD" "Dq7crumb" 200000001000 rfl rfl).1,
   (refreshCrumb_success_replaces_bundle handshakeEnv (sessionWorld 5) _ _
      "A1=d=AQAB; A3=d=AQCD" "Dq7crumb" 200000001000 rfl rfl).2.1⟩

/-- C5 fails on the code: with accepted cookies living 100 and 200 seconds (no `Expires`) and
the clock at instant 1000, `fetchCookies` returns the expiry of the last one, 200 seconds
after 1000, while the earliest expiry over the accepted cookies is 100 seconds after 1000. -/
theorem fetchCookies_expiry_not_earliest :
    (fetchCookies handshakeEnv initialWorld).1
        = ("A1=d=AQAB; A3=d=AQCD", 1000 + 200 * timeSecond, none)
      ∧ specEarliestExpiry 1000 (handshakeEnv.addDate10 1000) twoCookies
        = 1000 + 100 * timeSecond := by
  exact ⟨by decide, by decide⟩

/-- C6, as stated, fails: the API answers `500 Internal Server Error` and the body cannot be
read; `do` returns the read error before it looks at the status, so the message holds
`unexpected EOF` and neither the status line nor the status code. -/
theorem GetQuotes_error_status_unreadable_body :
    truncatedServerErrorResponse.StatusCode = 500
      ∧ (∃ req, Event.exchange Site.api req (Except.ok truncatedServerErrorResponse)
          ∈ newEvents (sessionWorld 5000)
              (GetQuotes truncatedServerErrorEnv ["AAPL"] (sessionWorld 5000)).2)
      ∧ (GetQuotes truncatedServerErrorEnv ["AAPL"] (sessionWorld 5000)).1
        = (none, some ⟨"code: remote-error, detail: unexpected EOF"⟩)
      ∧ ¬ stringsContains "code: remote-error, detail: unexpected EOF" "500" := by
  exact ⟨rfl, ⟨_, List.Mem.head _⟩, by decide, by decide⟩

/-- C6, amended: for a non-empty symbol list, when the authenticated request is answered by a
response whose status code is 400 or more: if its body can be read, `GetQuotes` returns a nil
result and the Remote error whose message is `code: remote-error, detail: error response
received from upstream api: ` followed by the status line, so that the message contains the
decimal status code; if its body cannot be read, `GetQuotes` returns a nil result and the
Remote error whose message is `code: remote-error, detail: ` followed by the read error.  In
both cases the same holds with any other decoder in place: the body is not decoded. -/
theorem GetQuotes_error_status (env : Env) (symbols : List String) (w : World)
    (req : Request) (resp : Response) (hne : symbols ≠ [])
    (hex : Event.exchange Site.api req (Except.ok resp)
      ∈ newEvents w (GetQuotes env symbols w).2)
    (hstatus : 400 ≤ resp.StatusCode) :
    (∀ body, resp.body = Except.ok body →
        (GetQuotes env symbols w).1
            = (none, some ⟨"code: remote-error, detail: "
                ++ ("error response received from upstream api: " ++ resp.Status)⟩)
          ∧ (∀ u, (GetQuotes (env.withUnmarshal u) symbols w).1
            = (none, some ⟨"code: remote-error, detail: "
                ++ ("error response received from upstream api: " ++ resp.Status)⟩))
          ∧ stringsContains ("code: remote-error, detail: "
                ++ ("error response received from upstream api: " ++ resp.Status))
              (toString resp.StatusCode))
      ∧ (∀ e, resp.body = Except.error e →
          (GetQuotes env symbols w).1
              = (none, some ⟨"code: remote-error, detail: " ++ e.msg⟩)
            ∧ ∀ u, (GetQuotes (env.withUnmarshal u) symbols w).1
              = (none, some ⟨"code: remote-error, detail: " ++ e.msg⟩)) := by
  constructor
  · intro body hbody
    have hcall := call_err_of_error_status env symbols w req resp body hne hex hbody hstatus
    refine ⟨?_, ?_, ?_⟩
    · rw [GetQuotes_fst_of_err env symbols w hne _ (hcall _)]
      rfl
    · intro u
      rw [GetQuotes_fst_of_err (env.withUnmarshal u) symbols w hne
        ⟨"error response received from upstream api: " ++ resp.Status⟩
        (by rw [call_withUnmarshal]; exact hcall _)]
      rfl
    · rw [← String.append_assoc]
      exact stringsContains_append _ _ _ (resp.status_ok (by omega))
  · intro e hbody
    have hcall := call_err_of_unreadable_body env symbols w req resp e hne hex hbody
    refine ⟨?_, ?_⟩
    · rw [GetQuotes_fst_of_err env symbols w hne e (hcall _)]
      rfl
    · intro u
      rw [GetQuotes_fst_of_err (env.withUnmarshal u) symbols w hne e
        (by rw [call_withUnmarshal]; exact hcall _)]
      rfl

/-- Witness for C6: a fresh session and an API that answers `500 Internal Server Error`, once
with a body that can be read and once with a body that cannot. -/
theorem GetQuotes_error_status_witness :
    (GetQuotes serverErrorEnv ["AAPL"] (sessionWorld 5000)).1
        = (none, some ⟨"code: remote-error, detail: error response received from upstream api: 500 Internal Server Error"⟩)
      ∧ stringsContains
          "code: remote-error, detail: error response received from upstream api: 500 Internal Server Error"
          "500"
      ∧ (GetQuotes truncatedServerErrorEnv ["AAPL"] (sessionWorld 5000)).1
        = (none, some ⟨"code: remote-error, detail: unexpected EOF"⟩) :=
  ⟨((GetQuotes_error_status serverErrorEnv ["AAPL"] (sessionWorld 5000) _
      (serverErrorResponse "Internal error") (by decide) (List.Mem.head _) (by decide)).1
        "Internal error" rfl).1,
   ((GetQuotes_error_status serverErrorEnv ["AAPL"] (sessionWorld 5000) _
      (serverErrorResponse "Internal error") (by decide) (List.Mem.head _) (by decide)).1
        "Internal error" rfl).2.2,
   ((GetQuotes_error_status truncatedServerErrorEnv ["AAPL"] (sessionWorld 5000) _
      truncatedServerErrorResponse (by decide) (List.Mem.head _) (by decide)).2
        ⟨"unexpected EOF"⟩ rfl).1⟩

set_option maxRecDepth 20000 in
/-- C7, as stated, fails: the embedded error has code `a<b`; the message carries its JSON
serialisation, in which the code reads `a\u003cb`, and does not contain the code itself. -/
theorem GetQuotes_embedded_error_code_escaped :
    (GetQuotes embeddedErrorEnv ["AAPL"] (sessionWorld 5000)).1
        = (none, some ⟨"code: remote-error, detail: \x7b\"code\":\"a\\u003cb\",\"description\":\"Invalid Crumb\"\x7d"⟩)
      ∧ ¬ stringsContains
          "code: remote-error, detail: \x7b\"code\":\"a\\u003cb\",\"description\":\"Invalid Crumb\"\x7d"
          "a<b" := by
  exact ⟨by decide, by decide⟩

/-- C7, amended: for a non-empty symbol list, when the authenticated request is answered by a
response with status below 400 whose body decodes without error to an envelope with a non-null
embedded error `e`, `GetQuotes` returns the Remote error whose message is
`code: remote-error, detail: ` followed by the JSON serialisation of `e`.  The message contains
the code and the description as JSON strings, and contains each of them verbatim whenever none
of its characters is one that JSON escapes. -/
theorem GetQuotes_embedded_error (env : Env) (symbols : List String) (w : World)
    (req : Request) (resp : Response) (body : String) (decoded : quoteResponse) (e : yError)
    (hne : symbols ≠ [])
    (hex : Event.exchange Site.api req (Except.ok resp)
      ∈ newEvents w (GetQuotes env symbols w).2)
    (hbody : resp.body = Except.ok body) (hstatus : resp.StatusCode < 400)
    (hdec : env.unmarshalQuoteResponse body quoteResponseZero = (decoded, none))
    (herr : decoded.Inner.Error = some e) :
    (GetQuotes env symbols w).1
        = (decoded.Inner.Result,
            some ⟨"code: remote-error, detail: " ++ jsonMarshalYError e⟩)
      ∧ stringsContains ("code: remote-error, detail: " ++ jsonMarshalYError e)
          (jsonString e.Code)
      ∧ stringsContains ("code: remote-error, detail: " ++ jsonMarshalYError e)
          (jsonString e.Description)
      ∧ ((∀ c ∈ e.Code.data, jsonEscapeChar c = [c]) →
          stringsContains ("code: remote-error, detail: " ++ jsonMarshalYError e) e.Code)
      ∧ ((∀ c ∈ e.Description.data, jsonEscapeChar c = [c]) →
          stringsContains ("code: remote-error, detail: " ++ jsonMarshalYError e)
            e.Description) := by
  have hcall := call_of_success_status env symbols w req resp body hne hex hbody hstatus
  rw [hdec] at hcall
  have hc := jsonMarshalYError_contains e
  refine ⟨?_, ?_, ?_, ?_, ?_⟩
  · rw [GetQuotes_fst_of_ok env symbols w hne decoded hcall.1 hcall.2, herr]
    rfl
  · exact stringsContains_append_right _ _ _ hc.1
  · exact stringsContains_append_right _ _ _ hc.2
  · intro hp
    exact stringsContains_append_right _ _ _
      (stringsContains_trans _ _ _ hc.1 (jsonString_contains_plain _ hp))
  · intro hp
    exact stringsContains_append_right _ _ _
      (stringsContains_trans _ _ _ hc.2 (jsonString_contains_plain _ hp))

/-- Witness for C7: a fresh session and an API that answers `200 OK` with the embedded error
`Unauthorized` / `Invalid Crumb`. -/
theorem GetQuotes_embedded_error_witness :
    (GetQuotes unauthorizedEnv ["AAPL"] (sessionWorld 5000)).1
        = (none, some ⟨"code: remote-error, detail: \x7b\"code\":\"Unauthorized\",\"description\":\"Invalid Crumb\"\x7d"⟩)
      ∧ stringsContains ("code: remote-error, detail: "
          ++ jsonMarshalYError { Code := "Unauthorized", Description := "Invalid Crumb" })
            "Unauthorized" :=
  ⟨(GetQuotes_embedded_error unauthorizedEnv ["AAPL"] (sessionWorld 5000) _
      (okResponse [] unauthorizedBody) unauthorizedBody _
      { Code := "Unauthorized", Description := "Invalid Crumb" } (by decide)
      (List.Mem.head _) rfl (by decide) rfl rfl).1,
   (GetQuotes_embedded_error unauthorizedEnv ["AAPL"] (sessionWorld 5000) _
      (okResponse [] unauthorizedBody) unauthorizedBody _
      { Code := "Unauthorized", Description := "Invalid Crumb" } (by decide)
      (List.Mem.head _) rfl (by decide) rfl rfl).2.2.2.1 (by decide)⟩

/-- C8: for a non-empty symbol list, when the authenticated request is answered by a response
with status below 400 (200 in particular) whose body decodes without error to an envelope with
a null embedded error and result list `rs`, `GetQuotes` returns no error and returns exactly
`rs`. -/
theorem GetQuotes_success (env : Env) (symbols : List String) (w : World)
    (req : Request) (resp : Response) (body : String) (decoded : quoteResponse)
    (hne : symbols ≠ [])
    (hex : Event.exchange Site.api req (Except.ok resp)
      ∈ newEvents w (GetQuotes env symbols w).2)
    (hbody : resp.body = Except.ok body) (hstatus : resp.StatusCode < 400)
    (hdec : env.unmarshalQuoteResponse body quoteResponseZero = (decoded, none))
    (herr : decoded.Inner.Error = none) :
    (GetQuotes env symbols w).1 = (decoded.Inner.Result, none) := by
  have hcall := call_of_success_status env symbols w req resp body hne hex hbody hstatus
  rw [hdec] at hcall
  rw [GetQuotes_fst_of_ok env symbols w hne decoded hcall.1 hcall.2, herr]
  rfl

/-- Witness for C8, the scenario of the specification: input `["AAPL"]`, status 200 and the
body with one record yield that one record, with symbol `AAPL` and price 150.25. -/
theorem GetQuotes_success_witness :
    (GetQuotes aaplEnv ["AAPL"] (sessionWorld 5000)).1
      = (some [{ Symbol := some "AAPL", RegularMarketPrice := some (601 / 4) }], none) :=
  GetQuotes_success aaplEnv ["AAPL"] (sessionWorld 5000) _ (okResponse [] aaplBody) aaplBody
    { Inner := { Result := some [aaplQuote], Error := none } } (by decide)
    (List.Mem.head _) rfl (by decide) rfl rfl

/-- C9: for a non-empty symbol list, whenever the underlying `call` fails with an error `e`,
`GetQuotes` returns a nil result and the error whose message is `code: remote-error, detail: `
followed by the message of `e`; and every error `GetQuotes` returns for a non-empty list is
such a wrapped message, never one that starts like an Argument error. -/
theorem GetQuotes_wraps_call_error (env : Env) (symbols : List String) (w : World)
    (hne : symbols ≠ []) :
    (∀ e, (call env env.unmarshalQuoteResponse yFinQuoteAPI (quoteParams symbols)
          (some quoteResponseZero) w).1.err = some e →
        (GetQuotes env symbols w).1
          = (none, some ⟨"code: remote-error, detail: " ++ e.msg⟩))
      ∧ (∀ err, (GetQuotes env symbols w).1.2 = some err →
          (∃ detail, err.msg = "code: remote-error, detail: " ++ detail)
          ∧ ¬ stringsHasPrefix err.msg "code: api-error"
          ∧ ∀ x, err ≠ CreateArgumentError x) := by
  constructor
  · intro e he
    rw [GetQuotes_fst_of_err env symbols w hne e he]
    rfl
  · intro err herr
    obtain ⟨detail, hd⟩ := GetQuotes_error_form env symbols w hne err herr
    refine ⟨⟨detail, hd⟩, ?_, ?_⟩
    · rw [hd]
      exact remote_not_argument detail
    · intro x hx
      have hpre : stringsHasPrefix err.msg "code: api-error" := by
        rw [hx]
        exact ⟨", detail: ".data ++ x.data, by
          simp only [CreateArgumentError, apiErrorCode, String.data_append]
          simp⟩
      rw [hd] at hpre
      exact remote_not_argument detail hpre

/-- Witness for C9: the session is stale and the transport cannot connect, so the cookie
fetch fails and its error comes back wrapped. -/
theorem GetQuotes_wraps_call_error_witness :
    (GetQuotes offlineEnv ["AAPL"] initialWorld).1
      = (none, some ⟨"code: remote-error, detail: dial tcp: connection refused"⟩) :=
  (GetQuotes_wraps_call_error offlineEnv ["AAPL"] initialWorld (by decide)).1 dialError rfl

/-- C10, as stated, fails: the API answers `200 OK` with an envelope that carries both a
record and an embedded error; `GetQuotes` returns the record list together with the error. -/
theorem GetQuotes_result_with_error :
    (GetQuotes mixedEnv ["AAPL"] (sessionWorld 5000)).1
        = (some [{ Symbol := some "AAPL", RegularMarketPrice := none }],
            some ⟨"code: remote-error, detail: \x7b\"code\":\"Bad Request\",\"description\":\"Missing value\"\x7d"⟩)
      ∧ (GetQuotes mixedEnv ["AAPL"] (sessionWorld 5000)).1.1 ≠ none
      ∧ (GetQuotes mixedEnv ["AAPL"] (sessionWorld 5000)).1.2 ≠ none := by
  exact ⟨by decide, by decide, by decide⟩

/-- C10, amended: `GetQuotes` returns a result with a nil error, or an error with a nil
result, or, when `call` succeeded and the decoded envelope carries an embedded error, that
error wrapped as Remote together with the result list of the envelope as decoded.  The error
comes with a nil result whenever the input is empty or `call` fails, and every error returned
is classified: its message starts with `code: api-error, detail: ` or with
`code: remote-error, detail: `. -/
theorem GetQuotes_result_or_error (env : Env) (symbols : List String) (w : World) :
    ((GetQuotes env symbols w).1.2 = none
        ∨ (GetQuotes env symbols w).1.1 = none
        ∨ (symbols ≠ []
          ∧ (call env env.unmarshalQuoteResponse yFinQuoteAPI (quoteParams symbols)
              (some quoteResponseZero) w).1.err = none
          ∧ ∃ e, (((call env env.unmarshalQuoteResponse yFinQuoteAPI (quoteParams symbols)
                (some quoteResponseZero) w).1.v).getD quoteResponseZero).Inner.Error = some e
            ∧ (GetQuotes env symbols w).1
              = ((((call env env.unmarshalQuoteResponse yFinQuoteAPI (quoteParams symbols)
                  (some quoteResponseZero) w).1.v).getD quoteResponseZero).Inner.Result,
                some ⟨"code: remote-error, detail: " ++ jsonMarshalYError e⟩)))
      ∧ (symbols = [] → (GetQuotes env symbols w).1.1 = none)
      ∧ (∀ e, (call env env.unmarshalQuoteResponse yFinQuoteAPI (quoteParams symbols)
            (some quoteResponseZero) w).1.err = some e → (GetQuotes env symbols w).1.1 = none)
      ∧ (∀ err, (GetQuotes env symbols w).1.2 = some err →
          stringsHasPrefix err.msg "code: api-error, detail: "
          ∨ stringsHasPrefix err.msg "code: remote-error, detail: ") := by
  by_cases hne : symbols = []
  · subst hne
    refine ⟨Or.inr (Or.inl rfl), fun _ => rfl, fun _ _ => rfl, ?_⟩
    intro err herr
    left
    have : err = CreateArgumentError "No symbols provided to GetQuotes" := by
      have h : (GetQuotes env [] w).1.2
          = some (CreateArgumentError "No symbols provided to GetQuotes") := rfl
      rw [h] at herr
      exact (Option.some.inj herr).symm
    rw [this]
    decide
  · have hfst := GetQuotes_fst env symbols w hne
    refine ⟨?_, fun h => absurd h hne, ?_, ?_⟩
    · cases hc : (call env env.unmarshalQuoteResponse yFinQuoteAPI (quoteParams symbols)
          (some quoteResponseZero) w).1.err with
      | some e =>
        rw [hc] at hfst
        right; left
        rw [hfst]
      | none =>
        rw [hc] at hfst
        cases he : (((call env env.unmarshalQuoteResponse yFinQuoteAPI (quoteParams symbols)
            (some quoteResponseZero) w).1.v).getD quoteResponseZero).Inner.Error with
        | none =>
          left
          rw [hfst]
          simp only [he, Option.map]
        | some e =>
          right; right
          refine ⟨hne, rfl, e, rfl, ?_⟩
          rw [hfst]
          simp only [he, Option.map]
          rfl
    · intro e he
      rw [GetQuotes_fst_of_err env symbols w hne e he]
    · intro err herr
      right
      obtain ⟨detail, hd⟩ := GetQuotes_error_form env symbols w hne err herr
      rw [hd]
      exact ⟨detail.data, by rw [String.data_append]⟩

/-- C11: for every call `GetQuotes` makes (the quote path and the `symbols` map), with a
library that accepts the quote URLs: when no refresh was needed or the refresh succeeded,
exactly one authenticated request is issued; nothing but the dump write follows it (no cookie
fetch, no crumb fetch, no second authenticated request) and the error `call` returns is the
one `do` derives from its outcome, so a failure of that request goes back to the caller
without a retry.  When the refresh failed, no authenticated request is issued and `call`
returns the error of the refresh. -/
theorem call_api_requests {α : Type} (env : Env) (hlib : acceptsQuoteURLs env)
    (unmarshal : String → α → α × Option GoError) (symbols : List String)
    (v : Option α) (w : World) :
    (refreshError env w = none →
        countSite Site.api
            (newEvents w (call env unmarshal yFinQuoteAPI (quoteParams symbols) v w).2) = 1
        ∧ ∃ pre req res dumps,
            newEvents w (call env unmarshal yFinQuoteAPI (quoteParams symbols) v w).2
                = pre ++ Event.exchange Site.api req res :: dumps
              ∧ countSite Site.api pre = 0
              ∧ (∀ ev ∈ dumps, Event.isExchange ev = false)
              ∧ (call env unmarshal yFinQuoteAPI (quoteParams symbols) v w).1.err
                  = (doOutcome unmarshal v res).1)
      ∧ (∀ e, refreshError env w = some e →
          (call env unmarshal yFinQuoteAPI (quoteParams symbols) v w).1.err = some e
          ∧ countSite Site.api
              (newEvents w (call env unmarshal yFinQuoteAPI (quoteParams symbols) v w).2)
            = 0) := by
  have hgen := call_outcome_by_construction env unmarshal yFinQuoteAPI (quoteParams symbols) v w
  refine ⟨?_, hgen.1⟩
  intro hnone
  obtain ⟨pre, res, dumps, hev, hpre, hd, hcount, herr⟩ :=
    (hgen.2 hnone).2 _ (newRequest_quote_ok env hlib symbols (worldAtSend env w))
  exact ⟨hcount, pre, _, res, dumps, hev, hpre, hd, herr⟩

/-- Witness for C11: a first call whose refresh succeeds and whose API cannot be reached
issues one authenticated request and returns its failure; a first call with the whole
transport down fails in the refresh and issues no authenticated request. -/
theorem call_api_requests_witness :
    countSite Site.api (newEvents initialWorld
          (call handshakeEnv rejectAll yFinQuoteAPI (quoteParams ["AAPL"])
            (some quoteResponseZero) initialWorld).2) = 1
      ∧ (call offlineEnv rejectAll yFinQuoteAPI (quoteParams ["AAPL"])
          (some quoteResponseZero) initialWorld).1.err = some dialError
      ∧ countSite Site.api (newEvents initialWorld
          (call offlineEnv rejectAll yFinQuoteAPI (quoteParams ["AAPL"])
            (some quoteResponseZero) initialWorld).2) = 0 :=
  ⟨((call_api_requests handshakeEnv (fun _ _ => rfl) rejectAll ["AAPL"]
      (some quoteResponseZero) initialWorld).1 rfl).1,
   (call_api_requests offlineEnv (fun _ _ => rfl) rejectAll ["AAPL"]
      (some quoteResponseZero) initialWorld).2 dialError rfl⟩

/-- C12, as stated, fails: the API answers `300 Multiple Choices`, a status outside 200-299,
with a body that decodes, and `GetQuotes` returns the record with a nil error. -/
theorem GetQuotes_redirect_status_no_error :
    (multipleChoicesResponse aaplBody).StatusCode = 300
      ∧ (GetQuotes multipleChoicesEnv ["AAPL"] (sessionWorld 5000)).1
        = (some [aaplQuote], none) := by
  exact ⟨rfl, rfl⟩

/-- C12, amended: for a non-empty symbol list, when the authenticated request is answered by a
response, a status of 400 or more yields a nil result and a Remote error; a status below 400
(1xx and 3xx included) is treated like 200: a body that cannot be read yields a Remote error,
a body that can be read is decoded, a decode failure or an embedded error yields a Remote
error, and otherwise the records are returned with a nil error. -/
theorem GetQuotes_status_classes (env : Env) (symbols : List String) (w : World)
    (req : Request) (resp : Response) (hne : symbols ≠ [])
    (hex : Event.exchange Site.api req (Except.ok resp)
      ∈ newEvents w (GetQuotes env symbols w).2) :
    (400 ≤ resp.StatusCode →
        ∃ detail, (GetQuotes env symbols w).1
          = (none, some ⟨"code: remote-error, detail: " ++ detail⟩))
      ∧ (resp.StatusCode < 400 →
        (GetQuotes env symbols w).1
          = match resp.body with
            | Except.error e => (none, some ⟨"code: remote-error, detail: " ++ e.msg⟩)
            | Except.ok body =>
              match (env.unmarshalQuoteResponse body quoteResponseZero).2 with
              | some e => (none, some ⟨"code: remote-error, detail: " ++ e.msg⟩)
              | none =>
                match (env.unmarshalQuoteResponse body quoteResponseZero).1.Inner.Error with
                | some e =>
                  ((env.unmarshalQuoteResponse body quoteResponseZero).1.Inner.Result,
                    some ⟨"code: remote-error, detail: " ++ jsonMarshalYError e⟩)
                | none =>
                  ((env.unmarshalQuoteResponse body quoteResponseZero).1.Inner.Result,
                    none)) := by
  cases hb : resp.body with
  | error e =>
    have hcall := call_err_of_unreadable_body env symbols w req resp e hne hex hb
      env.unmarshalQuoteResponse
    have hres := GetQuotes_fst_of_err env symbols w hne e hcall
    exact ⟨fun _ => ⟨e.msg, by rw [hres]; rfl⟩, fun _ => by rw [hres]; rfl⟩
  | ok body =>
    constructor
    · intro hstatus
      have hcall := call_err_of_error_status env symbols w req resp body hne hex hb hstatus
        env.unmarshalQuoteResponse
      exact ⟨_, by rw [GetQuotes_fst_of_err env symbols w hne _ hcall]; rfl⟩
    · intro hstatus
      have hcall := call_of_success_status env symbols w req resp body hne hex hb hstatus
      cases hd : (env.unmarshalQuoteResponse body quoteResponseZero).2 with
      | some e =>
        rw [hd] at hcall
        rw [GetQuotes_fst_of_err env symbols w hne e hcall.1]
        simp only [hd]
        rfl
      | none =>
        rw [hd] at hcall
        rw [GetQuotes_fst_of_ok env symbols w hne _ hcall.1 hcall.2]
        cases he : (env.unmarshalQuoteResponse body quoteResponseZero).1.Inner.Error with
        | some e =>
          simp only [hd, he]
          rfl
        | none =>
          simp only [hd, he]
          rfl

/-- Witness for C12: a fresh session and an API that answers `500 Internal Server Error`, and
one that answers `200 OK` with a body that cannot be read. -/
theorem GetQuotes_status_classes_witness :
    (∃ detail, (GetQuotes serverErrorEnv ["AAPL"] (sessionWorld 5000)).1
        = (none, some ⟨"code: remote-error, detail: " ++ detail⟩))
      ∧ (GetQuotes truncatedOkEnv ["AAPL"] (sessionWorld 5000)).1
        = (none, some ⟨"code: remote-error, detail: unexpected EOF"⟩) :=
  ⟨(GetQuotes_status_classes serverErrorEnv ["AAPL"] (sessionWorld 5000) _
      (serverErrorResponse "Internal error") (by decide) (List.Mem.head _)).1 (by decide),
   (GetQuotes_status_classes truncatedOkEnv ["AAPL"] (sessionWorld 5000) _
      truncatedOkResponse (by decide) (List.Mem.head _)).2 (by decide)⟩

set_option maxRecDepth 20000 in
/-- C13, as stated, fails: the API answers `500 Internal Server Error` with the body
`quota exceeded for key 42`; the message of the error holds the status line and not the
body. -/
theorem GetQuotes_error_status_without_body :
    (GetQuotes quotaEnv ["AAPL"] (sessionWorld 5000)).1
        = (none, some ⟨"code: remote-error, detail: error response received from upstream api: 500 Internal Server Error"⟩)
      ∧ ¬ stringsContains
          "code: remote-error, detail: error response received from upstream api: 500 Internal Server Error"
          "quota exceeded for key 42" := by
  exact ⟨by decide, by decide⟩

/-- C13, amended: for a response with status 400 or more, the Remote error does not carry the
body: when the body can be read its message is `code: remote-error, detail: error response
received from upstream api: ` followed by the status line, the same for every body, so that
any other such response with the same status line yields the same outcome; when the body
cannot be read its message is `code: remote-error, detail: ` followed by the read error. -/
theorem GetQuotes_error_status_ignores_body (env : Env) (symbols : List String) (w : World)
    (req : Request) (resp : Response) (hne : symbols ≠ [])
    (hex : Event.exchange Site.api req (Except.ok resp)
      ∈ newEvents w (GetQuotes env symbols w).2)
    (hstatus : 400 ≤ resp.StatusCode) :
    (GetQuotes env symbols w).1
        = (none, some ⟨"code: remote-error, detail: "
            ++ (match resp.body with
                | Except.ok _ => "error response received from upstream api: " ++ resp.Status
                | Except.error e => e.msg)⟩)
      ∧ ∀ (env2 : Env) (symbols2 : List String) (w2 : World) (req2 : Request)
          (resp2 : Response) (body body2 : String), symbols2 ≠ [] →
          Event.exchange Site.api req2 (Except.ok resp2)
            ∈ newEvents w2 (GetQuotes env2 symbols2 w2).2 →
          400 ≤ resp2.StatusCode → resp2.Status = resp.Status →
          resp.body = Except.ok body → resp2.body = Except.ok body2 →
          (GetQuotes env2 symbols2 w2).1 = (GetQuotes env symbols w).1 := by
  constructor
  · cases hb : resp.body with
    | error e =>
      rw [GetQuotes_fst_of_err env symbols w hne e
        (call_err_of_unreadable_body env symbols w req resp e hne hex hb _)]
      rfl
    | ok body =>
      rw [GetQuotes_fst_of_err env symbols w hne _
        (call_err_of_error_status env symbols w req resp body hne hex hb hstatus _)]
      rfl
  · intro env2 symbols2 w2 req2 resp2 body body2 hne2 hex2 hstatus2 hline hb hb2
    rw [GetQuotes_fst_of_err env symbols w hne _
        (call_err_of_error_status env symbols w req resp body hne hex hb hstatus _),
      GetQuotes_fst_of_err env2 symbols2 w2 hne2 _
        (call_err_of_error_status env2 symbols2 w2 req2 resp2 body2 hne2 hex2 hb2 hstatus2 _),
      hline]

/-- Witness for C13: two APIs answer `500 Internal Server Error` with different bodies; the
outcome is the same. -/
theorem GetQuotes_error_status_ignores_body_witness :
    (GetQuotes quotaEnv ["MSFT"] (sessionWorld 5000)).1
      = (GetQuotes serverErrorEnv ["AAPL"] (sessionWorld 5000)).1 :=
  (GetQuotes_error_status_ignores_body serverErrorEnv ["AAPL"] (sessionWorld 5000) _
    (serverErrorResponse "Internal error") (by decide) (List.Mem.head _) (by decide)).2
    quotaEnv ["MSFT"] (sessionWorld 5000) _ (serverErrorResponse "quota exceeded for key 42")
    "Internal error" "quota exceeded for key 42" (by decide) (List.Mem.head _) (by decide)
    rfl rfl rfl

/-- C14: when the session handshake is answered, the cookie header `fetchCookies` returns is
made of exactly the cookies with `MaxAge > 0` and a name other than `AS`, each rendered as
`name=value`, in the order of the response, joined by `; ` with nothing at the end; cookies
with `MaxAge <= 0` or named `AS` take no part, and the header is empty when no cookie is
accepted. -/
theorem fetchCookies_header (env : Env) (w : World) (resp : Response)
    (h : env.roundTrip w.trace cookieRequest = Except.ok resp) :
    (fetchCookies env w).1.1
        = "; ".intercalate
            ((resp.cookies.filter fun c => decide (0 < c.MaxAge ∧ c.Name ≠ "AS")).map
              fun c => c.Name ++ "=" ++ c.Value)
      ∧ (fetchCookies env w).1.2.2 = none
      ∧ ((∀ c ∈ resp.cookies, c.MaxAge ≤ 0 ∨ c.Name = "AS") → (fetchCookies env w).1.1 = "") := by
  have hfilter : (resp.cookies.filter fun c => decide (0 < c.MaxAge ∧ c.Name ≠ "AS"))
      = resp.cookies.filter accepted := by
    apply List.filter_congr
    intro c _
    cases hc : accepted c with
    | true => simpa using (accepted_eq_true_iff c).mp hc
    | false =>
      have := (accepted_eq_false_iff c).mp hc
      simp only [decide_eq_false_iff_not, not_and, Decidable.not_not]
      intro hpos
      rcases this with h0 | h0
      · omega
      · exact h0
  rw [fetchCookies_of_ok env w resp h, hfilter]
  refine ⟨cookieLoop_header env resp.cookies _ _, rfl, ?_⟩
  intro hrej
  show stringsTrimSuffix _ "; " = ""
  rw [cookieLoop_all_rejected env resp.cookies _ _ _ hrej]
  rfl

/-- Witness for C14: of four cookies the second is named `AS` and the third has `MaxAge` 0;
the header holds the first and the fourth. -/
theorem fetchCookies_header_witness :
    (fetchCookies mixedCookiesEnv initialWorld).1.1 = "A1=d=AQAB; A3=d=AQCD" :=
  (fetchCookies_header mixedCookiesEnv initialWorld (okResponse mixedCookies "") rfl).1

/-- C15: when the session handshake is answered and no cookie is accepted (the list is empty,
or every cookie has `MaxAge <= 0` or is named `AS`), `fetchCookies` succeeds with an empty
header and with the expiry `now.AddDate(10, 0, 0)`, ten calendar years after its reading of
the clock. -/
theorem fetchCookies_default_expiry (env : Env) (w : World) (resp : Response)
    (h : env.roundTrip w.trace cookieRequest = Except.ok resp)
    (hrej : ∀ c ∈ resp.cookies, c.MaxAge ≤ 0 ∨ c.Name = "AS") :
    (fetchCookies env w).1 = ("", env.addDate10 (env.clock w.tick), none) := by
  rw [fetchCookies_of_ok env w resp h, cookieLoop_all_rejected env resp.cookies _ _ _ hrej]
  rfl

/-- Witness for C15: three cookies, none accepted. -/
theorem fetchCookies_default_expiry_witness :
    (fetchCookies rejectedEnv initialWorld).1
      = ("", rejectedEnv.addDate10 1000, none) :=
  fetchCookies_default_expiry rejectedEnv initialWorld (okResponse rejectedCookies "") rfl
    (by decide)

/-- C16: once the freshness check of `call` has passed (no refresh was needed, or the refresh
succeeded), with `c` the crumb the client then holds: if `c` is not empty, the map holds `c`
under the key `crumb`, every other key holds what the caller supplied, and no key is doubled;
if `c` is empty the map is the one the caller supplied.  The URL of every authenticated
request issued is the base URL and the path followed by the encoding of that map. -/
theorem call_crumb_injection {α : Type} (env : Env)
    (unmarshal : String → α → α × Option GoError) (path : String) (params : queryParams)
    (v : Option α) (w : World) (hcheck : refreshError env w = none) :
    ((worldAtSend env w).client.crumb ≠ "" →
        mapGet (call env unmarshal path params v w).1.params "crumb"
            = some (worldAtSend env w).client.crumb
          ∧ (∀ key, key ≠ "crumb" →
              mapGet (call env unmarshal path params v w).1.params key = mapGet params key)
          ∧ ((params.map Prod.fst).Nodup →
              ((call env unmarshal path params v w).1.params.map Prod.fst).Nodup))
      ∧ ((worldAtSend env w).client.crumb = "" →
          (call env unmarshal path params v w).1.params = params)
      ∧ (∀ req res, Event.exchange Site.api req res
            ∈ newEvents w (call env unmarshal path params v w).2 →
          req.url = yFinURL ++ withQuery path (call env unmarshal path params v w).1.params) := by
  have hp : (call env unmarshal path params v w).1.params
      = injectCrumb (worldAtSend env w).client params := by
    rw [call_eq, hcheck]
    exact callSend_params env unmarshal path params v _
  refine ⟨?_, ?_, ?_⟩
  · intro hc
    rw [hp]
    unfold injectCrumb
    rw [if_pos hc]
    exact ⟨mapGet_mapSet_self _ _ _, fun key hk => mapGet_mapSet_other _ _ _ key hk,
      mapSet_keys_nodup _ _ _⟩
  · intro hc
    rw [hp]
    unfold injectCrumb
    rw [if_neg (fun h => h hc)]
  · intro req res hmem
    rw [hp, call_api_request env unmarshal path params v w req res hmem]

/-- Witness for C16: a first call refreshes the session and obtains the crumb `Dq7crumb`,
which is sent under the key `crumb` while `symbols` keeps its value. -/
theorem call_crumb_injection_witness :
    mapGet (call handshakeEnv rejectAll yFinQuoteAPI (quoteParams ["AAPL"])
        (some quoteResponseZero) initialWorld).1.params "crumb" = some "Dq7crumb"
      ∧ mapGet (call handshakeEnv rejectAll yFinQuoteAPI (quoteParams ["AAPL"])
        (some quoteResponseZero) initialWorld).1.params "symbols" = some "AAPL" :=
  ⟨((call_crumb_injection handshakeEnv rejectAll yFinQuoteAPI (quoteParams ["AAPL"])
      (some quoteResponseZero) initialWorld rfl).1 (by decide)).1,
   ((call_crumb_injection handshakeEnv rejectAll yFinQuoteAPI (quoteParams ["AAPL"])
      (some quoteResponseZero) initialWorld rfl).1 (by decide)).2.1 "symbols" (by decide)⟩

/-- C17: for a non-empty symbol list on a session that needs no refresh, holding the crumb
`c` and the cookie string `k`: every authenticated request `GetQuotes` issues is a `GET` on
the URL of the specification (`.../v7/finance/quote?crumb=<c escaped>&symbols=<joined symbols
escaped>`, or `?symbols=...` alone when `c` is empty) with the header `Cookie: k`; at most one
is issued, and exactly one when that URL can be made into a request. -/
theorem GetQuotes_request (env : Env) (symbols : List String) (w : World)
    (hne : symbols ≠ []) (hfresh : ¬ w.client.expiry < env.clock w.tick) :
    (∀ req res, Event.exchange Site.api req res ∈ newEvents w (GetQuotes env symbols w).2 →
        req.method = "GET"
        ∧ req.url = specQuoteURL w.client.crumb symbols
        ∧ mapGet req.header "Cookie" = some w.client.cookies)
      ∧ countSite Site.api (newEvents w (GetQuotes env symbols w).2) ≤ 1
      ∧ (env.newRequestErr (specQuoteURL w.client.crumb symbols) = none →
          countSite Site.api (newEvents w (GetQuotes env symbols w).2) = 1
          ∧ ∃ res, Event.exchange Site.api
                { method := "GET", url := specQuoteURL w.client.crumb symbols,
                  header := apiRequestHeader w.client.cookies } res
              ∈ newEvents w (GetQuotes env symbols w).2) := by
  have hcheck : refreshError env w = none := by
    unfold refreshError
    rw [if_neg hfresh]
  have hworld : worldAtSend env w = { w with tick := w.tick + 1 } := by
    unfold worldAtSend
    rw [if_neg hfresh]
  have hurl := quote_url_eq w.client symbols
  rw [GetQuotes_snd env symbols w hne]
  refine ⟨?_, ?_, ?_⟩
  · intro req res hmem
    have hreq := call_api_request env env.unmarshalQuoteResponse yFinQuoteAPI
      (quoteParams symbols) (some quoteResponseZero) w req res hmem
    rw [hworld] at hreq
    rw [hreq]
    refine ⟨rfl, hurl, ?_⟩
    simp [mapGet, apiRequestHeader]
  · rw [call_eq, hcheck, hworld]
    cases hn : newRequest env
        (withQuery yFinQuoteAPI (injectCrumb w.client (quoteParams symbols)))
        { w with tick := w.tick + 1 } with
    | error e =>
      simp only []
      rw [callSend_of_newRequest_error env env.unmarshalQuoteResponse yFinQuoteAPI
        (quoteParams symbols) (some quoteResponseZero) { w with tick := w.tick + 1 } e hn,
        newEvents_of_trace w _ [] (by simp)]
      exact Nat.zero_le _
    | ok req =>
      simp only []
      rw [callSend_of_newRequest_ok env env.unmarshalQuoteResponse yFinQuoteAPI
        (quoteParams symbols) (some quoteResponseZero) { w with tick := w.tick + 1 } req hn]
      obtain ⟨dumps, htr, hd⟩ := yClientDo_trace env env.unmarshalQuoteResponse req
        (some quoteResponseZero) { w with tick := w.tick + 1 }
      rw [newEvents_of_trace w _ _ htr]
      have := countSite_of_not_exchange Site.api dumps hd
      simpa [countSite, Event.fromSite] using this
  · intro hok
    rw [← hurl] at hok
    have hn := newRequest_of_none env _ { w with tick := w.tick + 1 } hok
    rw [call_eq, hcheck, hworld]
    simp only []
    rw [callSend_of_newRequest_ok env env.unmarshalQuoteResponse yFinQuoteAPI
      (quoteParams symbols) (some quoteResponseZero) { w with tick := w.tick + 1 } _ hn]
    obtain ⟨dumps, htr, hd⟩ := yClientDo_trace env env.unmarshalQuoteResponse
      { method := "GET",
        url := yFinURL ++ withQuery yFinQuoteAPI (injectCrumb w.client (quoteParams symbols)),
        header := apiRequestHeader w.client.cookies }
      (some quoteResponseZero) { w with tick := w.tick + 1 }
    rw [newEvents_of_trace w _ _ htr, ← hurl]
    refine ⟨?_, _, List.Mem.head _⟩
    have := countSite_of_not_exchange Site.api dumps hd
    simpa [countSite, Event.fromSite] using this

/-- Witness for C17: the symbols `^DJI` and `AAPL` on a session holding the crumb `oldcrumb`
and the cookies `A1=old`. -/
theorem GetQuotes_request_witness :
    specQuoteURL "oldcrumb" ["^DJI", "AAPL"]
        = "https://query1.finance.yahoo.com/v7/finance/quote?crumb=oldcrumb&symbols=%5EDJI%2CAAPL"
      ∧ countSite Site.api
          (newEvents (sessionWorld 5000)
            (GetQuotes serverErrorEnv ["^DJI", "AAPL"] (sessionWorld 5000)).2) = 1 :=
  ⟨by decide,
   ((GetQuotes_request serverErrorEnv ["^DJI", "AAPL"] (sessionWorld 5000) (by decide)
      (by decide)).2.2 rfl).1⟩

/-- C18: the outcome of `do` (the error and the decode target) does not depend on the dump:
it is the same whether the dump is enabled or skipped, and whatever the query lookup,
`json.Indent`, `filepath.Join` and `os.WriteFile` return; the stored credential is the same as
well. -/
theorem do_outcome_ignores_dump {α : Type} (env : Env)
    (unmarshal : String → α → α × Option GoError) (req : Request) (v : Option α) (w : World)
    (dump : Bool) (queryGet : String → String → String)
    (jsonIndent : String → String × Option GoError)
    (filepathJoin : String → String → String)
    (writeFile : String → String → Option GoError) :
    yClientDo env unmarshal req v w = doWithDump enableDump env unmarshal req v w
      ∧ (doWithDump dump (env.withDump queryGet jsonIndent filepathJoin writeFile)
          unmarshal req v w).1 = (yClientDo env unmarshal req v w).1
      ∧ (doWithDump dump (env.withDump queryGet jsonIndent filepathJoin writeFile)
          unmarshal req v w).2.client = (yClientDo env unmarshal req v w).2.client := by
  refine ⟨rfl, ?_, ?_⟩
  · rw [yClientDo_fst]
    unfold doWithDump doOutcome
    simp only [timeNow, httpClientDo, Env.withDump]
    split
    · rfl
    · split
      · rfl
      · split
        · rfl
        · split <;> rfl
  · rw [yClientDo_client]
    unfold doWithDump
    simp only [timeNow, httpClientDo, Env.withDump]
    split
    · rfl
    · split
      · rfl
      · cases dump
        · simp only [Bool.false_eq_true, if_false]
          split
          · rfl
          · split <;> rfl
        · simp only [if_true, dumpResponse]
          split
          · rfl
          · split <;> rfl

/-- C19: with a clock that stands at one instant, two runs of `fetchCookies` whose session
handshakes return the same list of cookies yield the same cookie header, character for
character, and the same expiry, whatever the state of the process at each run. -/
theorem fetchCookies_deterministic (env : Env) (w1 w2 : World) (resp1 resp2 : Response)
    (now : Int) (hclock : ∀ n, env.clock n = now)
    (h1 : env.roundTrip w1.trace cookieRequest = Except.ok resp1)
    (h2 : env.roundTrip w2.trace cookieRequest = Except.ok resp2)
    (hsame : resp1.cookies = resp2.cookies) :
    (fetchCookies env w1).1.1 = (fetchCookies env w2).1.1
      ∧ (fetchCookies env w1).1.2.1 = (fetchCookies env w2).1.2.1
      ∧ (fetchCookies env w1).1 = (fetchCookies env w2).1 := by
  rw [fetchCookies_of_ok env w1 resp1 h1, fetchCookies_of_ok env w2 resp2 h2]
  simp only [cookieLoop_header, hsame, hclock]
  have hexp := cookieLoop_expiry_fixed_clock env env now hclock hclock resp2.cookies "" ""
    (env.addDate10 now)
    { w1 with tick := w1.tick + 1,
              trace := w1.trace ++ [Event.exchange Site.cookie cookieRequest
                (Except.ok resp1)] }
    { w2 with tick := w2.tick + 1,
              trace := w2.trace ++ [Event.exchange Site.cookie cookieRequest
                (Except.ok resp2)] }
  exact ⟨trivial, hexp, by rw [hexp]⟩

/-- Witness for C19: the same two cookies, fetched on a new process and on a later state of a
process. -/
theorem fetchCookies_deterministic_witness :
    (fetchCookies handshakeEnv initialWorld).1 = (fetchCookies handshakeEnv laterWorld).1 :=
  (fetchCookies_deterministic handshakeEnv initialWorld laterWorld (okResponse twoCookies "")
    (okResponse twoCookies "") 1000 (fun _ => rfl) rfl rfl rfl).2.2

/-- C20: when the crumb endpoint answers with a response whose body can be read, whatever
its status code, `fetchCrumb` returns no error and the whole body, unchanged, as the crumb.
It fails only when the request cannot be sent or the body cannot be read, and then returns
the empty string with that error (the request itself, a `GET` on a constant URL, can always
be created). -/
theorem fetchCrumb_returns_body (env : Env) (cookies : String) (w : World) :
    (∀ resp body, env.roundTrip w.trace (crumbRequest cookies) = Except.ok resp →
        resp.body = Except.ok body → (fetchCrumb env cookies w).1 = (body, none))
      ∧ (∀ e, (fetchCrumb env cookies w).1.2 = some e →
          (fetchCrumb env cookies w).1.1 = ""
          ∧ (env.roundTrip w.trace (crumbRequest cookies) = Except.error e
            ∨ ∃ resp, env.roundTrip w.trace (crumbRequest cookies) = Except.ok resp
                ∧ resp.body = Except.error e)) := by
  have hreq : env.roundTrip w.trace
      { method := "GET", url := crumbURL, header := crumbRequestHeader cookies }
      = env.roundTrip w.trace (crumbRequest cookies) := rfl
  unfold fetchCrumb httpNewRequest
  rw [env.crumbURL_ok]
  simp only [httpClientDo, hreq]
  cases hr : env.roundTrip w.trace (crumbRequest cookies) with
  | error err =>
    refine ⟨fun resp body h => (by cases h), ?_⟩
    intro e he
    simp only [Option.some.injEq] at he
    exact ⟨rfl, Or.inl (by rw [he])⟩
  | ok resp =>
    cases hb : resp.body with
    | error err =>
      refine ⟨?_, ?_⟩
      · intro resp1 body h hbody
        cases h
        rw [hb] at hbody
        cases hbody
      · intro e he
        simp only [hb, Option.some.injEq] at he
        exact ⟨by simp only [hb], Or.inr ⟨resp, rfl, by rw [hb, he]⟩⟩
    | ok body =>
      refine ⟨?_, ?_⟩
      · intro resp1 body1 h hbody
        cases h
        rw [hb] at hbody
        cases hbody
        simp only [hb]
      · intro e he
        simp only [hb] at he
        cases he

/-- Witness for C20: the crumb endpoint answers `403 Forbidden`; the body comes back as the
crumb with its blanks and its line end. -/
theorem fetchCrumb_returns_body_witness :
    (fetchCrumb forbiddenCrumbEnv "A1=d=AQAB" initialWorld).1 = (" Too Many Requests\n", none) :=
  (fetchCrumb_returns_body forbiddenCrumbEnv "A1=d=AQAB" initialWorld).1
    (forbiddenResponse " Too Many Requests\n") " Too Many Requests\n" rfl rfl

/-- C21, as stated, fails: the clock stands in 2023 and the one accepted cookie has `MaxAge`
9223372037 and no `Expires`; `MaxAge` seconds do not fit an `int64` count of nanoseconds, the
duration wraps around, and `fetchCookies` returns an expiry some 292 years before the clock
reading, where the stated rule gives the reading plus 9223372037 seconds. -/
theorem fetchCookies_expiry_wraps_on_huge_max_age :
    (fetchCookies hugeMaxAgeEnv initialWorld).1.2.1 = 54576627963290448384
      ∧ specLastMatchExpiry (hugeMaxAgeEnv.addDate10 instant2023)
          (specCandidates hugeMaxAgeEnv 1 hugeMaxAgeCookies) = 73023372037000000000
      ∧ (fetchCookies hugeMaxAgeEnv initialWorld).1.2.1 < instant2023 := by
  exact ⟨by decide, by decide, by decide⟩

/-- C21, amended: when the session handshake is answered with cookies whose `MaxAge` is at
most 9223372036 (so that `MaxAge` seconds fit a duration), the expiry `fetchCookies` returns
follows the last-match rule: it is the instant `now + MaxAge` seconds of the last accepted
cookie (`MaxAge > 0`, name other than `AS`) whose own `Expires` is before that instant, `now`
being the clock reading taken for that cookie, and it is the ten-year default when no accepted
cookie passes that test.  The same holds for the loop started from any value of `expiry`:
that value serves as the fallback only and is never compared with a candidate. -/
theorem fetchCookies_last_match (env : Env) (w : World) (resp : Response)
    (h : env.roundTrip w.trace cookieRequest = Except.ok resp)
    (hrange : ∀ c ∈ resp.cookies, c.MaxAge ≤ 9223372036) :
    (fetchCookies env w).1.2.1
        = specLastMatchExpiry (env.addDate10 (env.clock w.tick))
            (specCandidates env (w.tick + 1) resp.cookies)
      ∧ ∀ (result : String) (expiry : Int) (w0 : World),
          (cookieLoop env resp.cookies result expiry w0).1.2
            = specLastMatchExpiry expiry (specCandidates env w0.tick resp.cookies) := by
  refine ⟨?_, fun result expiry w0 => cookieLoop_last_match env _ result expiry w0 hrange⟩
  rw [fetchCookies_of_ok env w resp h]
  exact cookieLoop_last_match env resp.cookies _ _ _ hrange

/-- Witness for C21: accepted cookies without `Expires` living 100 then 200 seconds give the
clock reading (1000) plus 200 seconds, the last one and not the earliest; when the second
cookie carries an `Expires` after its own instant, the first one is the last match and the
expiry is the reading plus 100 seconds. -/
theorem fetchCookies_last_match_witness :
    (fetchCookies handshakeEnv initialWorld).1.2.1 = 1000 + 200 * timeSecond
      ∧ (fetchCookies lateExpiresEnv initialWorld).1.2.1 = 1000 + 100 * timeSecond :=
  ⟨(fetchCookies_last_match handshakeEnv initialWorld (okResponse twoCookies "") rfl
      (by decide)).1.trans (by decide),
   (fetchCookies_last_match lateExpiresEnv initialWorld (okResponse lateExpiresCookies "") rfl
      (by decide)).1.trans (by decide)⟩

end Dorfyn
